import Mathlib

/-!
# Shallow embedding of the Homa Transport coordinator

This file embeds the Transport coordinator of the Homa transport library
(`Transport.cc`) as executable Lean definitions, and proves properties about
the embedded operations.  The coordinator binds inbound and outbound messages
into operations (Ops), dispatches packets, and manages the Op lifecycle.

Pieces of the repository that are referenced but whose code is not part of the
embedded translation unit (the Op constructor, `Op::drop`, `hintUpdatedOp`,
the Protocol tag constants, and the external Sender) are modelled from the
specification; each such definition says so in its doc comment.
-/

namespace Homa

/-- Reference to an Op object in the transport object pool (models an Op
pointer; the pool never reuses a reference). -/
abbrev OpRef := Nat

/-- Globally unique operation identifier: pair of transport id and sequence
number (Protocol::OpId). -/
structure OpId where
  transportId : Nat
  sequence : Nat
deriving DecidableEq, Repr

/-- Message identifier: an OpId plus a tag identifying a message within the
chain of an operation (Protocol::MessageId). -/
structure MessageId where
  opId : OpId
  tag : Nat
deriving DecidableEq, Repr

/-- Modelled from the spec: reserved tag marking the first request of a chain.
The value of `Protocol::MessageId::INITIAL_REQUEST_TAG` lives in
`Protocol.h`, which is not part of the embedded sources; the spec only
requires the reserved tags to be distinct and delegated hops to use
`tag + 1` starting from the initial request. -/
def INITIAL_REQUEST_TAG : Nat := 1

/-- Modelled from the spec: reserved tag marking the final reply of a chain
(`Protocol::MessageId::ULTIMATE_RESPONSE_TAG`); chosen outside the delegation
chain 1, 2, 3, ... and distinct from `INITIAL_REQUEST_TAG`. -/
def ULTIMATE_RESPONSE_TAG : Nat := 0

/-- Op state (`OpContext::State`): NotStarted, InProgress, Completed, Failed. -/
inductive OpState where
  | NOT_STARTED
  | IN_PROGRESS
  | COMPLETED
  | FAILED
deriving DecidableEq, Repr

/-- Rank of an Op state along the chain
NotStarted → InProgress → (Completed | Failed). -/
def OpState.rank : OpState → Nat
  | .NOT_STARTED => 0
  | .IN_PROGRESS => 1
  | .COMPLETED => 2
  | .FAILED => 2

/-- Modelled from the spec: the transmission state of an outbound message as
managed by the external Sender (`OutboundMessage::State`); the coordinator
reads SENT and COMPLETED. -/
inductive OutState where
  | NOT_STARTED
  | IN_PROGRESS
  | SENT
  | COMPLETED
  | FAILED
deriving DecidableEq, Repr

/-- Outbound message handle owned by an Op: its message id (assigned when the
Sender starts transmitting it), its Sender-side state, and the replyAddress
field of its `Protocol::Message::Header`. Addresses are modelled as raw
naturals. -/
structure OutMsg where
  id : MessageId
  state : OutState
  replyAddress : Nat
deriving DecidableEq, Repr

/-- Inbound message handle owned by the Receiver: its message id, whether it
is fully received (`isReady`), the replyAddress field of its message header,
and its source address. -/
structure InMsg where
  id : MessageId
  ready : Bool
  replyAddress : Nat
  source : Nat
deriving DecidableEq, Repr

/-- An operation (`Transport::Op`): one client-side or server-side endpoint of
a request/response exchange. -/
structure Op where
  opId : OpId
  isServerOp : Bool
  state : OpState
  retained : Bool
  destroy : Bool
  inMessage : Option InMsg
  outMessage : OutMsg
deriving DecidableEq, Repr

/-- Modelled from the spec: the Op constructor (declared in `Transport.h`,
not part of the embedded sources).  A fresh Op starts NotStarted, not
retained, not marked for destruction, with no inbound message and a fresh
outbound message handle. -/
def Op.construct (opId : OpId) (isServerOp : Bool) : Op :=
  { opId := opId
    isServerOp := isServerOp
    state := .NOT_STARTED
    retained := false
    destroy := false
    inMessage := none
    outMessage := { id := ⟨⟨0, 0⟩, 0⟩, state := .NOT_STARTED, replyAddress := 0 } }

/-- The Transport coordinator state: identifier and sequence counter, the Op
pool (a partial map from references to live Ops), the tables `activeOps`,
`remoteOps`, `pendingServerOps`, the deduplicated update-hint FIFO
(ordered queue plus membership set), the `unusedOps` reclamation queue, and
observable logs of the calls the coordinator makes on the external driver,
Sender and Receiver (DONE packets emitted, inbound messages dropped via the
Receiver, outbound messages dropped via the Sender, sendMessage calls). -/
structure Transport where
  transportId : Nat
  localAddress : Nat
  nextOpSequenceNumber : Nat
  nextRef : OpRef
  ops : OpRef → Option Op
  activeOps : List OpRef
  remoteOps : List (OpId × OpRef)
  pendingServerOps : List OpRef
  updateHintsOrder : List OpRef
  updateHintsSet : List OpRef
  unusedOps : List OpRef
  doneSent : List (Nat × MessageId)
  receiverDropped : List MessageId
  senderDropped : List OpRef
  senderSends : List (MessageId × Nat)

namespace Transport

/-- A freshly constructed transport (`Transport::Transport`):
`nextOpSequenceNumber` starts at 1 and every table is empty. -/
def init (transportId localAddress : Nat) : Transport :=
  { transportId := transportId
    localAddress := localAddress
    nextOpSequenceNumber := 1
    nextRef := 0
    ops := fun _ => none
    activeOps := []
    remoteOps := []
    pendingServerOps := []
    updateHintsOrder := []
    updateHintsSet := []
    unusedOps := []
    doneSent := []
    receiverDropped := []
    senderDropped := []
    senderSends := [] }

/-- Look up a live Op by reference (dereference an Op pointer). -/
def getOp (t : Transport) (r : OpRef) : Option Op := t.ops r

/-- Overwrite the Op stored at a reference. -/
def setOp (t : Transport) (r : OpRef) (op : Op) : Transport :=
  { t with ops := fun x => if x = r then some op else t.ops x }

/-- Modelled from the spec: `Transport::hintUpdatedOp` (declared in
`Transport.h`, not part of the embedded sources).  Posting a hint inserts the
Op into both the ordered queue and the membership set; a duplicate post is
ignored. -/
def hintUpdatedOp (t : Transport) (r : OpRef) : Transport :=
  if t.updateHintsSet.contains r then t
  else { t with updateHintsOrder := t.updateHintsOrder ++ [r]
                updateHintsSet := r :: t.updateHintsSet }

/-- Modelled from the spec: `Transport::Op::drop` (declared in `Transport.h`,
not part of the embedded sources).  Sets the Op's `destroy` flag and appends
it to the `unusedOps` reclamation queue; actual destruction is deferred to
`cleanupOps`. -/
def dropOp (t : Transport) (r : OpRef) (op : Op) : Transport :=
  let t' := t.setOp r { op with destroy := true }
  { t' with unusedOps := t'.unusedOps ++ [r] }

/-- `Transport::Op::processUpdates`: check for state changes on one Op and
perform any necessary actions.  Dereferencing a dead reference is a no-op
(the real caller only invokes this on live Ops). -/
def processUpdates (t : Transport) (r : OpRef) : Transport :=
  match t.getOp r with
  | none => t
  | some op =>
    if op.destroy then t
    else
      let copyOfState := op.state
      let outState := op.outMessage.state
      if op.isServerOp then
        match copyOfState with
        | .NOT_STARTED =>
          match op.inMessage with
          | some m =>
            if m.ready then
              let t' := { t with pendingServerOps := t.pendingServerOps ++ [r] }
              t'.setOp r { op with state := .IN_PROGRESS }
            else t
          | none => t
        | .IN_PROGRESS =>
          if outState = .COMPLETED ∨
              (op.outMessage.id.tag = ULTIMATE_RESPONSE_TAG ∧
                outState = .SENT) then
            let t' := t.setOp r { op with state := .COMPLETED }
            let t'' :=
              match op.inMessage with
              | some m =>
                if m.id.tag ≠ INITIAL_REQUEST_TAG then
                  { t' with doneSent := t'.doneSent ++ [(m.source, m.id)] }
                else t'
              | none => t'
            t''.hintUpdatedOp r
          else t
        | .COMPLETED => if ¬ op.retained then t.dropOp r op else t
        | .FAILED => if ¬ op.retained then t.dropOp r op else t
      else
        if ¬ op.retained then t.dropOp r op
        else
          match copyOfState with
          | .NOT_STARTED => t
          | .IN_PROGRESS =>
            match op.inMessage with
            | some m =>
              if m.ready then
                (t.setOp r { op with state := .COMPLETED }).hintUpdatedOp r
              else t
            | none => t
          | .COMPLETED => t
          | .FAILED => t

/-- Modelled from the spec: the external Sender's `sendMessage(id, destination,
outMessage)` contract.  The Sender records the message id on the outbound
message handle and begins transmission; the call is logged. -/
def senderSendMessage (t : Transport) (r : OpRef) (mid : MessageId)
    (dest : Nat) : Transport :=
  let t' :=
    match t.getOp r with
    | some op =>
      t.setOp r { op with outMessage :=
        { op.outMessage with id := mid, state := .IN_PROGRESS } }
    | none => t
  { t' with senderSends := t'.senderSends ++ [(mid, dest)] }

/-- Modelled from the spec: the external Sender advancing the transmission
state of an Op's outbound message (for example to SENT once every byte has
been transmitted, or to COMPLETED when the matching DONE arrives). -/
def senderAdvance (t : Transport) (r : OpRef) (s : OutState) : Transport :=
  match t.getOp r with
  | some op => t.setOp r { op with outMessage := { op.outMessage with state := s } }
  | none => t

/-- `Transport::allocOp`: assign a fresh opId, construct a client Op, insert
it into `activeOps` and `remoteOps`, write the driver's local address into
the outbound header's replyAddress field, and mark it retained. -/
def allocOp (t : Transport) : OpRef × Transport :=
  let opId : OpId := ⟨t.transportId, t.nextOpSequenceNumber⟩
  let op := Op.construct opId false
  let r := t.nextRef
  let t' := { t with
    nextOpSequenceNumber := t.nextOpSequenceNumber + 1
    nextRef := r + 1
    ops := fun x => if x = r then some op else t.ops x
    activeOps := t.activeOps ++ [r]
    remoteOps := t.remoteOps ++ [(opId, r)] }
  (r, t'.setOp r { op with
    outMessage := { op.outMessage with replyAddress := t.localAddress }
    retained := true })

/-- `Transport::receiveOp`: pop the front of `pendingServerOps` if any; on the
popped Op copy the replyAddress from the inbound message's header into the
outbound message's header and mark the Op retained.  The source asserts
`inMessage != nullptr`; the embedding leaves the outbound header unchanged on
that unreachable branch. -/
def receiveOp (t : Transport) : Option OpRef × Transport :=
  match t.pendingServerOps with
  | [] => (none, t)
  | r :: rest =>
    let t' := { t with pendingServerOps := rest }
    match t'.getOp r with
    | none => (some r, t')
    | some op =>
      let addr :=
        match op.inMessage with
        | some m => m.replyAddress
        | none => op.outMessage.replyAddress
      (some r, t'.setOp r { op with
        outMessage := { op.outMessage with replyAddress := addr }
        retained := true })

/-- `Transport::releaseOp`: clear the retained flag and post an update hint. -/
def releaseOp (t : Transport) (r : OpRef) : Transport :=
  match t.getOp r with
  | none => t
  | some op => (t.setOp r { op with retained := false }).hintUpdatedOp r

/-- `Transport::sendRequest`: for a server Op, delegate the request under the
id `(opId of the incoming request, tag + 1)`; for a client Op, store
IN_PROGRESS and transmit under `(opId, INITIAL_REQUEST_TAG)`. -/
def sendRequest (t : Transport) (r : OpRef) (destination : Nat) : Transport :=
  match t.getOp r with
  | none => t
  | some op =>
    if op.isServerOp then
      match op.inMessage with
      | some m =>
        t.senderSendMessage r ⟨m.id.opId, m.id.tag + 1⟩ destination
      | none => t
    else
      let t' := t.setOp r { op with state := .IN_PROGRESS }
      t'.senderSendMessage r ⟨op.opId, INITIAL_REQUEST_TAG⟩ destination

/-- `Transport::sendReply`: read the reply address from the inbound header,
store IN_PROGRESS, and transmit under `(opId of the incoming request,
ULTIMATE_RESPONSE_TAG)` to that address.  The source asserts a server Op with
an inbound message present; on the unreachable branch the embedding is a
no-op. -/
def sendReply (t : Transport) (r : OpRef) : Transport :=
  match t.getOp r with
  | none => t
  | some op =>
    match op.inMessage with
    | none => t
    | some m =>
      let t' := t.setOp r { op with state := .IN_PROGRESS }
      t'.senderSendMessage r ⟨m.id.opId, ULTIMATE_RESPONSE_TAG⟩ m.replyAddress

/-- One iteration group of `Transport::processInboundMessages`: dispatch a
single ready inbound message handed back by the Receiver.  A response
(`ULTIMATE_RESPONSE_TAG`) is attached to the client Op found in `remoteOps`,
or dropped via the Receiver if none is found; any other tag creates a new
server Op keyed by the message's OpId. -/
def processOneInbound (t : Transport) (message : InMsg) : Transport :=
  let id := message.id
  if id.tag = ULTIMATE_RESPONSE_TAG then
    match t.remoteOps.find? (fun p => p.1 = id.opId) with
    | some p =>
      match t.getOp p.2 with
      | some op =>
        (t.setOp p.2 { op with inMessage := some message }).hintUpdatedOp p.2
      | none => t
    | none => { t with receiverDropped := t.receiverDropped ++ [id] }
  else
    let op := Op.construct id.opId true
    let r := t.nextRef
    let t' := { t with
      nextRef := r + 1
      ops := fun x => if x = r then some op else t.ops x
      activeOps := t.activeOps ++ [r] }
    (t'.setOp r { op with inMessage := some message }).hintUpdatedOp r

/-- `Transport::processInboundMessages`: drain the ready messages the Receiver
yields, in order. -/
def processInboundMessages (t : Transport) (msgs : List InMsg) : Transport :=
  msgs.foldl processOneInbound t

/-- The loop of `Transport::checkForUpdates`, fuel-bounded by the number of
hints observed at entry: take a hint from the front of the queue (erasing it
from the membership set), skip it if the Op is no longer active, otherwise run
`processUpdates`; stop early when the queue empties. -/
def checkForUpdatesLoop : Nat → Transport → Transport
  | 0, t => t
  | i + 1, t =>
    match t.updateHintsOrder with
    | [] => t
    | hint :: rest =>
      let t' := { t with updateHintsOrder := rest
                         updateHintsSet := t.updateHintsSet.filter (· ≠ hint) }
      if t'.activeOps.contains hint then
        checkForUpdatesLoop i (t'.processUpdates hint)
      else
        checkForUpdatesLoop i t'

/-- `Transport::checkForUpdates`: bound the pass by the queue size at entry,
then run the hint-draining loop. -/
def checkForUpdates (t : Transport) : Transport :=
  checkForUpdatesLoop t.updateHintsOrder.length t

/-- Instrumented copy of `checkForUpdatesLoop` that also counts the hints
actually taken off the queue during the pass. -/
def checkForUpdatesLoopCount : Nat → Transport → Transport × Nat
  | 0, t => (t, 0)
  | i + 1, t =>
    match t.updateHintsOrder with
    | [] => (t, 0)
    | hint :: rest =>
      let t' := { t with updateHintsOrder := rest
                         updateHintsSet := t.updateHintsSet.filter (· ≠ hint) }
      let next :=
        if t'.activeOps.contains hint then
          checkForUpdatesLoopCount i (t'.processUpdates hint)
        else
          checkForUpdatesLoopCount i t'
      (next.1, next.2 + 1)

/-- The body of one effective `cleanupOps` iteration on a popped Op that is
still active: drop its outbound message via the Sender, drop its inbound
message (if any) via the Receiver, remove it from `remoteOps` (client Ops)
and `activeOps`, and destroy it. -/
def cleanupOne (t : Transport) (r : OpRef) (op : Op) : Transport :=
  let t1 := { t with senderDropped := t.senderDropped ++ [r] }
  let t2 :=
    match op.inMessage with
    | some m => { t1 with receiverDropped := t1.receiverDropped ++ [m.id] }
    | none => t1
  let t3 :=
    if ¬ op.isServerOp then
      { t2 with remoteOps := t2.remoteOps.filter (fun p => p.1 ≠ op.opId) }
    else t2
  { t3 with
    activeOps := t3.activeOps.filter (· ≠ r)
    ops := fun x => if x = r then none else t3.ops x }

/-- The loop of `Transport::cleanupOps`, fuel-bounded by the `unusedOps` queue
size observed at entry: pop an unused Op, skip it if no longer active,
otherwise reclaim it with `cleanupOne`; stop early when the queue empties. -/
def cleanupOpsLoop : Nat → Transport → Transport
  | 0, t => t
  | i + 1, t =>
    match t.unusedOps with
    | [] => t
    | r :: rest =>
      let t' := { t with unusedOps := rest }
      if t'.activeOps.contains r then
        match t'.getOp r with
        | some op => cleanupOpsLoop i (t'.cleanupOne r op)
        | none => cleanupOpsLoop i t'
      else
        cleanupOpsLoop i t'

/-- `Transport::cleanupOps`: bound the pass by the queue size at entry, then
run the garbage-collection loop. -/
def cleanupOps (t : Transport) : Transport :=
  cleanupOpsLoop t.unusedOps.length t

/-- Instrumented copy of `cleanupOpsLoop` that also counts the entries
actually taken off the `unusedOps` queue during the pass. -/
def cleanupOpsLoopCount : Nat → Transport → Transport × Nat
  | 0, t => (t, 0)
  | i + 1, t =>
    match t.unusedOps with
    | [] => (t, 0)
    | r :: rest =>
      let t' := { t with unusedOps := rest }
      let next :=
        if t'.activeOps.contains r then
          match t'.getOp r with
          | some op => cleanupOpsLoopCount i (t'.cleanupOne r op)
          | none => cleanupOpsLoopCount i t'
        else
          cleanupOpsLoopCount i t'
      (next.1, next.2 + 1)

end Transport

/-- Timeout constants of the coordinator (`Transport.cc`), in microseconds. -/
def BASE_TIMEOUT_US : Nat := 2000

/-- Microseconds to wait before timing out and failing a message. -/
def MESSAGE_TIMEOUT_US : Nat := 40 * BASE_TIMEOUT_US

/-- Microseconds to wait before pinging to check on outbound messages. -/
def PING_INTERVAL_US : Nat := 3 * BASE_TIMEOUT_US

/-- Microseconds to wait before performing retries on inbound messages. -/
def RESEND_INTERVAL_US : Nat := BASE_TIMEOUT_US

/-- The timeout arguments (in microseconds, before cycle conversion) that the
Transport constructor passes to its Sender and Receiver. -/
structure TimeoutConfig where
  senderMessageTimeout : Nat
  senderPingInterval : Nat
  receiverMessageTimeout : Nat
  receiverResendInterval : Nat
deriving DecidableEq, Repr

/-- The configuration built by `Transport::Transport`: the Sender gets the
message timeout and the ping interval, the Receiver gets the message timeout
and the resend interval. -/
def transportTimeouts : TimeoutConfig :=
  { senderMessageTimeout := MESSAGE_TIMEOUT_US
    senderPingInterval := PING_INTERVAL_US
    receiverMessageTimeout := MESSAGE_TIMEOUT_US
    receiverResendInterval := RESEND_INTERVAL_US }

/-- One externally triggered step of the coordinator: an API call, a poll
sub-pass, or progress reported by the external Sender. -/
inductive Step where
  | alloc
  | receive
  | release (r : OpRef)
  | request (r : OpRef) (destination : Nat)
  | reply (r : OpRef)
  | inbound (m : InMsg)
  | checkUpdates
  | cleanup
  | update (r : OpRef)
  | senderProgress (r : OpRef) (s : OutState)
deriving DecidableEq, Repr

/-- Whether a step is one of the two send calls (which store IN_PROGRESS
unconditionally). -/
def Step.isSend : Step → Bool
  | .request _ _ => true
  | .reply _ => true
  | _ => false

/-- Apply one step to a transport state. -/
def Step.apply (s : Step) (t : Transport) : Transport :=
  match s with
  | .alloc => (t.allocOp).2
  | .receive => (t.receiveOp).2
  | .release r => t.releaseOp r
  | .request r d => t.sendRequest r d
  | .reply r => t.sendReply r
  | .inbound m => t.processOneInbound m
  | .checkUpdates => t.checkForUpdates
  | .cleanup => t.cleanupOps
  | .update r => t.processUpdates r
  | .senderProgress r s => t.senderAdvance r s

/-- Run a sequence of steps from a starting state. -/
def runSteps (steps : List Step) (t : Transport) : Transport :=
  steps.foldl (fun acc s => s.apply acc) t

/-- Monotonicity of Op states between two transport snapshots: every Op alive
in both has a state whose rank did not decrease. -/
def StateMono (t t' : Transport) : Prop :=
  ∀ r op op', t.getOp r = some op → t'.getOp r = some op' →
    op.state.rank ≤ op'.state.rank

/-- A dead Op reference stays dead between two transport snapshots (the pool
never resurrects a reference). -/
def NoRevive (t t' : Transport) : Prop :=
  ∀ r, t.getOp r = none → t'.getOp r = none

/-- Pool freshness: references at or above `nextRef` are unallocated. -/
def Fresh (t : Transport) : Prop :=
  ∀ r, t.nextRef ≤ r → t.getOp r = none

/-- Well-formedness of the `remoteOps` table: keys are pairwise distinct, and
every key was minted by this transport with a sequence number below the
current counter. -/
def RemoteKeysOK (t : Transport) : Prop :=
  t.remoteOps.Pairwise (fun a b => a.1 ≠ b.1) ∧
  ∀ p ∈ t.remoteOps, p.1.transportId = t.transportId ∧
    p.1.sequence < t.nextOpSequenceNumber

end Homa

namespace Homa

namespace Transport

@[simp]
theorem getOp_setOp (t : Transport) (x : OpRef) (op : Op) (r : OpRef) :
    (t.setOp x op).getOp r = if r = x then some op else t.getOp r := rfl

@[simp]
theorem getOp_hint (t : Transport) (x r : OpRef) :
    (t.hintUpdatedOp x).getOp r = t.getOp r := by
  unfold hintUpdatedOp; split <;> rfl

@[simp]
theorem ops_hint (t : Transport) (x : OpRef) :
    (t.hintUpdatedOp x).ops = t.ops := by
  unfold hintUpdatedOp; split <;> rfl

@[simp]
theorem activeOps_hint (t : Transport) (x : OpRef) :
    (t.hintUpdatedOp x).activeOps = t.activeOps := by
  unfold hintUpdatedOp; split <;> rfl

@[simp]
theorem remoteOps_hint (t : Transport) (x : OpRef) :
    (t.hintUpdatedOp x).remoteOps = t.remoteOps := by
  unfold hintUpdatedOp; split <;> rfl

@[simp]
theorem unusedOps_hint (t : Transport) (x : OpRef) :
    (t.hintUpdatedOp x).unusedOps = t.unusedOps := by
  unfold hintUpdatedOp; split <;> rfl

@[simp]
theorem pendingServerOps_hint (t : Transport) (x : OpRef) :
    (t.hintUpdatedOp x).pendingServerOps = t.pendingServerOps := by
  unfold hintUpdatedOp; split <;> rfl

@[simp]
theorem doneSent_hint (t : Transport) (x : OpRef) :
    (t.hintUpdatedOp x).doneSent = t.doneSent := by
  unfold hintUpdatedOp; split <;> rfl

@[simp]
theorem receiverDropped_hint (t : Transport) (x : OpRef) :
    (t.hintUpdatedOp x).receiverDropped = t.receiverDropped := by
  unfold hintUpdatedOp; split <;> rfl

@[simp]
theorem senderDropped_hint (t : Transport) (x : OpRef) :
    (t.hintUpdatedOp x).senderDropped = t.senderDropped := by
  unfold hintUpdatedOp; split <;> rfl

@[simp]
theorem senderSends_hint (t : Transport) (x : OpRef) :
    (t.hintUpdatedOp x).senderSends = t.senderSends := by
  unfold hintUpdatedOp; split <;> rfl

@[simp]
theorem transportId_hint (t : Transport) (x : OpRef) :
    (t.hintUpdatedOp x).transportId = t.transportId := by
  unfold hintUpdatedOp; split <;> rfl

@[simp]
theorem nextOpSequenceNumber_hint (t : Transport) (x : OpRef) :
    (t.hintUpdatedOp x).nextOpSequenceNumber = t.nextOpSequenceNumber := by
  unfold hintUpdatedOp; split <;> rfl

@[simp]
theorem nextRef_hint (t : Transport) (x : OpRef) :
    (t.hintUpdatedOp x).nextRef = t.nextRef := by
  unfold hintUpdatedOp; split <;> rfl

@[simp]
theorem localAddress_hint (t : Transport) (x : OpRef) :
    (t.hintUpdatedOp x).localAddress = t.localAddress := by
  unfold hintUpdatedOp; split <;> rfl

theorem mem_updateHintsSet_hint (t : Transport) (x : OpRef) :
    x ∈ (t.hintUpdatedOp x).updateHintsSet := by
  unfold hintUpdatedOp
  split
  · next h => simpa using h
  · exact List.mem_cons_self _ _

end Transport

end Homa

namespace Homa

/-- C9: the transport derives its timeouts from a single 2000 us base: the
message timeout is 40 times the base (80000 us), the Sender's ping interval is
3 times the base (6000 us), the Receiver's resend interval is 1 times the base
(2000 us), and the constructor hands the Sender the message timeout and ping
interval and the Receiver the message timeout and resend interval. -/
theorem timeout_constants_spec :
    BASE_TIMEOUT_US = 2000 ∧
    MESSAGE_TIMEOUT_US = 40 * BASE_TIMEOUT_US ∧ MESSAGE_TIMEOUT_US = 80000 ∧
    PING_INTERVAL_US = 3 * BASE_TIMEOUT_US ∧ PING_INTERVAL_US = 6000 ∧
    RESEND_INTERVAL_US = BASE_TIMEOUT_US ∧ RESEND_INTERVAL_US = 2000 ∧
    transportTimeouts =
      { senderMessageTimeout := 80000
        senderPingInterval := 6000
        receiverMessageTimeout := 80000
        receiverResendInterval := 2000 } := by
  decide

/-- C10: once an Op's destroy flag is set, processUpdates returns immediately:
the whole transport state (the Op, pendingServerOps, unusedOps, everything) is
left untouched, so a stale hint cannot re-transition or re-enqueue the Op. -/
theorem processUpdates_destroyed_noop (t : Transport) (r : OpRef) (op : Op)
    (hget : t.getOp r = some op) (hdes : op.destroy = true) :
    t.processUpdates r = t := by
  unfold Transport.processUpdates
  rw [hget]
  simp [hdes]

/-- Witness for C10: a client Op allocated, released and dropped has its
destroy flag set; processUpdates on it is the identity. -/
theorem processUpdates_destroyed_noop_witness :
    (runSteps [.alloc, .release 0, .update 0]
        (Transport.init 9 5)).processUpdates 0 =
      runSteps [.alloc, .release 0, .update 0] (Transport.init 9 5) :=
  processUpdates_destroyed_noop _ 0
    { opId := ⟨9, 1⟩, isServerOp := false, state := .NOT_STARTED,
      retained := false, destroy := true, inMessage := none,
      outMessage := { id := ⟨⟨0, 0⟩, 0⟩, state := .NOT_STARTED,
                      replyAddress := 5 } }
    (by decide) rfl

/-- C6: allocOp assigns the fresh opId (transportId, nextOpSequenceNumber),
increments the counter, returns a client Op that is retained, inserts it into
both activeOps and remoteOps keyed by its opId, and writes the driver's local
address into the outbound header's reply-address field. -/
theorem allocOp_spec (t : Transport) :
    (t.allocOp).1 = t.nextRef ∧
    (t.allocOp).2.nextOpSequenceNumber = t.nextOpSequenceNumber + 1 ∧
    (t.allocOp).2.getOp t.nextRef = some
      { opId := ⟨t.transportId, t.nextOpSequenceNumber⟩
        isServerOp := false
        state := .NOT_STARTED
        retained := true
        destroy := false
        inMessage := none
        outMessage := { id := ⟨⟨0, 0⟩, 0⟩, state := .NOT_STARTED,
                        replyAddress := t.localAddress } } ∧
    (t.allocOp).2.activeOps = t.activeOps ++ [t.nextRef] ∧
    (t.allocOp).2.remoteOps =
      t.remoteOps ++ [(⟨t.transportId, t.nextOpSequenceNumber⟩, t.nextRef)] := by
  refine ⟨rfl, rfl, ?_, rfl, rfl⟩
  simp [Transport.allocOp, Transport.getOp, Transport.setOp, Op.construct]

/-- C7: receiveOp returns none exactly when pendingServerOps is empty (and
then changes nothing); otherwise it pops the front Op, copies the
reply-address from the inbound message's header into the outbound header,
sets retained, and leaves every other piece of transport state unchanged. -/
theorem receiveOp_spec (t : Transport) :
    ((t.receiveOp).1 = none ↔ t.pendingServerOps = []) ∧
    (t.pendingServerOps = [] → (t.receiveOp).2 = t) ∧
    (∀ r rest op m, t.pendingServerOps = r :: rest → t.getOp r = some op →
      op.inMessage = some m →
      (t.receiveOp).1 = some r ∧
      (t.receiveOp).2.getOp r = some
        { op with
          outMessage := { op.outMessage with replyAddress := m.replyAddress }
          retained := true } ∧
      (t.receiveOp).2.pendingServerOps = rest ∧
      (∀ x, x ≠ r → (t.receiveOp).2.getOp x = t.getOp x) ∧
      (t.receiveOp).2.activeOps = t.activeOps ∧
      (t.receiveOp).2.remoteOps = t.remoteOps ∧
      (t.receiveOp).2.updateHintsOrder = t.updateHintsOrder ∧
      (t.receiveOp).2.updateHintsSet = t.updateHintsSet ∧
      (t.receiveOp).2.unusedOps = t.unusedOps ∧
      (t.receiveOp).2.doneSent = t.doneSent ∧
      (t.receiverDropped = (t.receiveOp).2.receiverDropped) ∧
      (t.receiveOp).2.senderDropped = t.senderDropped ∧
      (t.receiveOp).2.senderSends = t.senderSends ∧
      (t.receiveOp).2.nextRef = t.nextRef ∧
      (t.receiveOp).2.nextOpSequenceNumber = t.nextOpSequenceNumber ∧
      (t.receiveOp).2.transportId = t.transportId ∧
      (t.receiveOp).2.localAddress = t.localAddress) := by
  refine ⟨?_, ?_, ?_⟩
  · unfold Transport.receiveOp
    cases h : t.pendingServerOps with
    | nil => simp
    | cons r rest =>
      simp only
      constructor
      · intro hc
        exfalso
        cases hg : Transport.getOp { t with pendingServerOps := rest } r with
        | none => rw [hg] at hc; simp at hc
        | some op => rw [hg] at hc; simp at hc
      · intro hc; exact absurd hc (by simp)
  · intro h
    unfold Transport.receiveOp
    rw [h]
  · intro r rest op m hq hg hm
    have hg' : Transport.getOp { t with pendingServerOps := rest } r = some op := hg
    unfold Transport.receiveOp
    rw [hq]
    simp only [hg', hm]
    refine ⟨?_, ?_, ?_, ?_, ?_, ?_, ?_, ?_, ?_, ?_, ?_, ?_, ?_, ?_, ?_, ?_, ?_⟩ <;>
      first
        | rfl
        | trivial
        | (simp [Transport.setOp, Transport.getOp]; done)
        | (intro x hx; simp [Transport.setOp, Transport.getOp];
           exact fun hxx => absurd hxx hx)

/-- Witness for C7: on a transport whose pending queue holds one server Op
with a ready inbound request, receiveOp pops it, copies the reply address 77
from the inbound header, and retains it. -/
theorem receiveOp_spec_witness :
    ((runSteps [.inbound ⟨⟨⟨3, 4⟩, 1⟩, true, 77, 12⟩, .update 0]
        (Transport.init 9 5)).receiveOp).1 = some 0 ∧
    ((runSteps [.inbound ⟨⟨⟨3, 4⟩, 1⟩, true, 77, 12⟩, .update 0]
        (Transport.init 9 5)).receiveOp).2.getOp 0 = some
      { opId := ⟨3, 4⟩, isServerOp := true, state := .IN_PROGRESS,
        retained := true, destroy := false,
        inMessage := some ⟨⟨⟨3, 4⟩, 1⟩, true, 77, 12⟩,
        outMessage := { id := ⟨⟨0, 0⟩, 0⟩, state := .NOT_STARTED,
                        replyAddress := 77 } } := by
  have h := (receiveOp_spec
      (runSteps [.inbound ⟨⟨⟨3, 4⟩, 1⟩, true, 77, 12⟩, .update 0]
        (Transport.init 9 5))).2.2 0 []
    { opId := ⟨3, 4⟩, isServerOp := true, state := .IN_PROGRESS,
      retained := false, destroy := false,
      inMessage := some ⟨⟨⟨3, 4⟩, 1⟩, true, 77, 12⟩,
      outMessage := { id := ⟨⟨0, 0⟩, 0⟩, state := .NOT_STARTED,
                      replyAddress := 0 } }
    ⟨⟨⟨3, 4⟩, 1⟩, true, 77, 12⟩ (by decide) (by decide) rfl
  exact ⟨h.1, h.2.1⟩

end Homa

namespace Homa

namespace Transport

@[simp]
theorem cleanupOne_getOp (t : Transport) (r : OpRef) (op : Op) (x : OpRef) :
    (t.cleanupOne r op).getOp x = if x = r then none else t.getOp x := by
  simp only [Transport.cleanupOne, Transport.getOp]
  cases op.inMessage <;> by_cases h : op.isServerOp = true <;> simp [h]

@[simp]
theorem cleanupOne_activeOps (t : Transport) (r : OpRef) (op : Op) :
    (t.cleanupOne r op).activeOps = t.activeOps.filter (· ≠ r) := by
  simp only [Transport.cleanupOne]
  cases op.inMessage <;> by_cases h : op.isServerOp = true <;> simp [h]

@[simp]
theorem cleanupOne_unusedOps (t : Transport) (r : OpRef) (op : Op) :
    (t.cleanupOne r op).unusedOps = t.unusedOps := by
  simp only [Transport.cleanupOne]
  cases op.inMessage <;> by_cases h : op.isServerOp = true <;> simp [h]

@[simp]
theorem cleanupOne_senderDropped (t : Transport) (r : OpRef) (op : Op) :
    (t.cleanupOne r op).senderDropped = t.senderDropped ++ [r] := by
  simp only [Transport.cleanupOne]
  cases op.inMessage <;> by_cases h : op.isServerOp = true <;> simp [h]

@[simp]
theorem cleanupOne_transportId (t : Transport) (r : OpRef) (op : Op) :
    (t.cleanupOne r op).transportId = t.transportId := by
  simp only [Transport.cleanupOne]
  cases op.inMessage <;> by_cases h : op.isServerOp = true <;> simp [h]

@[simp]
theorem cleanupOne_nextOpSequenceNumber (t : Transport) (r : OpRef) (op : Op) :
    (t.cleanupOne r op).nextOpSequenceNumber = t.nextOpSequenceNumber := by
  simp only [Transport.cleanupOne]
  cases op.inMessage <;> by_cases h : op.isServerOp = true <;> simp [h]

@[simp]
theorem cleanupOne_nextRef (t : Transport) (r : OpRef) (op : Op) :
    (t.cleanupOne r op).nextRef = t.nextRef := by
  simp only [Transport.cleanupOne]
  cases op.inMessage <;> by_cases h : op.isServerOp = true <;> simp [h]

theorem cleanupOne_remoteOps_sub (t : Transport) (r : OpRef) (op : Op) :
    ∀ p ∈ (t.cleanupOne r op).remoteOps, p ∈ t.remoteOps := by
  intro p hp
  simp only [Transport.cleanupOne] at hp
  cases hm : op.inMessage <;> rw [hm] at hp <;> split at hp <;>
    simp_all [List.mem_filter]

theorem cleanupOne_remoteOps_client (t : Transport) (r : OpRef) (op : Op)
    (h : op.isServerOp = false) :
    (t.cleanupOne r op).remoteOps =
      t.remoteOps.filter (fun p => p.1 ≠ op.opId) := by
  simp only [Transport.cleanupOne, h]
  cases op.inMessage <;> simp

theorem cleanupOpsLoop_getOp_none (n : Nat) :
    ∀ (t : Transport) (x : OpRef), t.getOp x = none →
      (cleanupOpsLoop n t).getOp x = none := by
  induction n with
  | zero => intro t x h; exact h
  | succ i ih =>
    intro t x h
    unfold cleanupOpsLoop
    split
    · exact h
    · dsimp only
      split
      · split
        · apply ih
          simp only [cleanupOne_getOp]
          split
          · rfl
          · exact h
        · exact ih _ x h
      · exact ih _ x h

theorem cleanupOpsLoop_not_active (n : Nat) :
    ∀ (t : Transport) (x : OpRef), x ∉ t.activeOps →
      x ∉ (cleanupOpsLoop n t).activeOps := by
  induction n with
  | zero => intro t x h; exact h
  | succ i ih =>
    intro t x h
    unfold cleanupOpsLoop
    split
    · exact h
    · dsimp only
      split
      · split
        · apply ih
          simp only [cleanupOne_activeOps]
          intro hmem
          exact h (List.mem_of_mem_filter hmem)
        · exact ih _ x h
      · exact ih _ x h

theorem cleanupOpsLoop_senderDropped_mono (n : Nat) :
    ∀ (t : Transport) (x : OpRef), x ∈ t.senderDropped →
      x ∈ (cleanupOpsLoop n t).senderDropped := by
  induction n with
  | zero => intro t x h; exact h
  | succ i ih =>
    intro t x h
    unfold cleanupOpsLoop
    split
    · exact h
    · dsimp only
      split
      · split
        · apply ih
          simp only [cleanupOne_senderDropped]
          exact List.mem_append_left _ h
        · exact ih _ x h
      · exact ih _ x h

theorem cleanupOpsLoop_remoteOps_sub (n : Nat) :
    ∀ (t : Transport) (p : OpId × OpRef), p ∈ (cleanupOpsLoop n t).remoteOps →
      p ∈ t.remoteOps := by
  induction n with
  | zero => intro t p h; exact h
  | succ i ih =>
    intro t p h
    unfold cleanupOpsLoop at h
    split at h
    · exact h
    · dsimp only at h
      split at h
      · split at h
        · have h1 := ih _ p h
          have h2 := cleanupOne_remoteOps_sub _ _ _ p h1
          exact h2
        · have h1 := ih _ p h
          exact h1
      · have h1 := ih _ p h
        exact h1

end Transport

end Homa

namespace Homa

/-- C2: a server Op in InProgress transitions to Completed under
processUpdates exactly when its outbound message is COMPLETED or is the
ULTIMATE_RESPONSE and is SENT; on that transition a DONE packet goes to the
inbound message's source iff the inbound tag differs from
INITIAL_REQUEST_TAG, and an update hint for the Op is posted; otherwise
processUpdates changes nothing. -/
theorem processUpdates_server_inprogress (t : Transport) (r : OpRef)
    (op : Op) (m : InMsg)
    (hget : t.getOp r = some op) (hdes : op.destroy = false)
    (hsrv : op.isServerOp = true) (hst : op.state = .IN_PROGRESS)
    (hin : op.inMessage = some m) :
    ((op.outMessage.state = .COMPLETED ∨
        (op.outMessage.id.tag = ULTIMATE_RESPONSE_TAG ∧
          op.outMessage.state = .SENT)) →
      (t.processUpdates r).getOp r = some { op with state := .COMPLETED } ∧
      (t.processUpdates r).doneSent = t.doneSent ++
        (if m.id.tag ≠ INITIAL_REQUEST_TAG then [(m.source, m.id)] else []) ∧
      r ∈ (t.processUpdates r).updateHintsSet) ∧
    (¬ (op.outMessage.state = .COMPLETED ∨
        (op.outMessage.id.tag = ULTIMATE_RESPONSE_TAG ∧
          op.outMessage.state = .SENT)) →
      t.processUpdates r = t) := by
  have hbody : t.processUpdates r =
      (if op.outMessage.state = .COMPLETED ∨
          (op.outMessage.id.tag = ULTIMATE_RESPONSE_TAG ∧
            op.outMessage.state = .SENT) then
        Transport.hintUpdatedOp
          (if m.id.tag ≠ INITIAL_REQUEST_TAG then
            { t.setOp r { op with state := .COMPLETED } with
              doneSent :=
                (t.setOp r { op with state := .COMPLETED }).doneSent ++
                  [(m.source, m.id)] }
          else t.setOp r { op with state := .COMPLETED }) r
      else t) := by
    unfold Transport.processUpdates
    rw [hget]
    simp only [hdes, hsrv, hst, hin, Bool.false_eq_true, if_false, if_true]
  constructor
  · intro hcond
    rw [hbody]
    rw [if_pos hcond]
    by_cases htag : m.id.tag ≠ INITIAL_REQUEST_TAG
    · simp only [if_pos htag]
      refine ⟨?_, ?_, ?_⟩
      · simp [Transport.getOp, Transport.setOp]
      · simp [Transport.setOp]
      · exact Transport.mem_updateHintsSet_hint _ _
    · simp only [if_neg htag]
      refine ⟨?_, ?_, ?_⟩
      · simp [Transport.getOp, Transport.setOp]
      · simp [Transport.setOp]
      · exact Transport.mem_updateHintsSet_hint _ _
  · intro hcond
    rw [hbody, if_neg hcond]

/-- Witness for C2: a delegated request (tag 2) whose ultimate reply has been
reported SENT by the Sender completes, emits a DONE packet to the request's
source 12, and posts a hint. -/
theorem processUpdates_server_inprogress_witness :
    ((runSteps [.inbound ⟨⟨⟨3, 4⟩, 2⟩, true, 77, 12⟩, .update 0, .receive,
        .reply 0, .senderProgress 0 .SENT]
        (Transport.init 9 5)).processUpdates 0).getOp 0 = some
      { opId := ⟨3, 4⟩, isServerOp := true, state := .COMPLETED,
        retained := true, destroy := false,
        inMessage := some ⟨⟨⟨3, 4⟩, 2⟩, true, 77, 12⟩,
        outMessage := { id := ⟨⟨3, 4⟩, 0⟩, state := .SENT,
                        replyAddress := 77 } } ∧
    ((runSteps [.inbound ⟨⟨⟨3, 4⟩, 2⟩, true, 77, 12⟩, .update 0, .receive,
        .reply 0, .senderProgress 0 .SENT]
        (Transport.init 9 5)).processUpdates 0).doneSent =
      [(12, ⟨⟨3, 4⟩, 2⟩)] ∧
    0 ∈ ((runSteps [.inbound ⟨⟨⟨3, 4⟩, 2⟩, true, 77, 12⟩, .update 0, .receive,
        .reply 0, .senderProgress 0 .SENT]
        (Transport.init 9 5)).processUpdates 0).updateHintsSet := by
  have h := (processUpdates_server_inprogress
      (runSteps [.inbound ⟨⟨⟨3, 4⟩, 2⟩, true, 77, 12⟩, .update 0, .receive,
        .reply 0, .senderProgress 0 .SENT] (Transport.init 9 5)) 0
      { opId := ⟨3, 4⟩, isServerOp := true, state := .IN_PROGRESS,
        retained := true, destroy := false,
        inMessage := some ⟨⟨⟨3, 4⟩, 2⟩, true, 77, 12⟩,
        outMessage := { id := ⟨⟨3, 4⟩, 0⟩, state := .SENT,
                        replyAddress := 77 } }
      ⟨⟨⟨3, 4⟩, 2⟩, true, 77, 12⟩
      (by decide) rfl rfl rfl rfl).1 (by decide)
  exact ⟨h.1, h.2.1.trans (by decide), h.2.2⟩

end Homa

namespace Homa

/-- C3: dispatch of one ready inbound message: an ULTIMATE_RESPONSE whose
OpId is in remoteOps is attached to that client Op and a hint is posted (no
Op created, nothing dropped); an ULTIMATE_RESPONSE with no matching client Op
is dropped via the Receiver and no Op is created or modified; any other tag
creates a fresh server Op keyed by the message's OpId, inserts it into
activeOps but not remoteOps, attaches the message and posts a hint. -/
theorem processInbound_dispatch (t : Transport) (m : InMsg) :
    (∀ p op, m.id.tag = ULTIMATE_RESPONSE_TAG →
      t.remoteOps.find? (fun q => q.1 = m.id.opId) = some p →
      t.getOp p.2 = some op →
      (t.processOneInbound m).getOp p.2 = some { op with inMessage := some m } ∧
      p.2 ∈ (t.processOneInbound m).updateHintsSet ∧
      (t.processOneInbound m).activeOps = t.activeOps ∧
      (t.processOneInbound m).remoteOps = t.remoteOps ∧
      (t.processOneInbound m).nextRef = t.nextRef ∧
      (t.processOneInbound m).receiverDropped = t.receiverDropped) ∧
    (m.id.tag = ULTIMATE_RESPONSE_TAG →
      t.remoteOps.find? (fun q => q.1 = m.id.opId) = none →
      (t.processOneInbound m).receiverDropped = t.receiverDropped ++ [m.id] ∧
      (∀ x, (t.processOneInbound m).getOp x = t.getOp x) ∧
      (t.processOneInbound m).activeOps = t.activeOps ∧
      (t.processOneInbound m).nextRef = t.nextRef ∧
      (t.processOneInbound m).updateHintsOrder = t.updateHintsOrder) ∧
    (m.id.tag ≠ ULTIMATE_RESPONSE_TAG →
      (t.processOneInbound m).getOp t.nextRef = some
        { opId := m.id.opId, isServerOp := true, state := .NOT_STARTED,
          retained := false, destroy := false, inMessage := some m,
          outMessage := { id := ⟨⟨0, 0⟩, 0⟩, state := .NOT_STARTED,
                          replyAddress := 0 } } ∧
      (t.processOneInbound m).activeOps = t.activeOps ++ [t.nextRef] ∧
      (t.processOneInbound m).remoteOps = t.remoteOps ∧
      t.nextRef ∈ (t.processOneInbound m).updateHintsSet ∧
      (t.processOneInbound m).nextRef = t.nextRef + 1) := by
  refine ⟨?_, ?_, ?_⟩
  · intro p op htag hfind hop
    simp only [Transport.processOneInbound, if_pos htag, hfind, hop]
    refine ⟨?_, ?_, ?_, ?_, ?_, ?_⟩ <;>
      first
        | rfl
        | trivial
        | (simp [Transport.setOp, Transport.getOp]; done)
        | exact Transport.mem_updateHintsSet_hint _ _
  · intro htag hfind
    simp only [Transport.processOneInbound, if_pos htag, hfind]
    refine ⟨?_, ?_, ?_, ?_, ?_⟩ <;>
      first
        | rfl
        | trivial
        | (intro x; rfl)
  · intro htag
    simp only [Transport.processOneInbound, if_neg htag]
    refine ⟨?_, ?_, ?_, ?_, ?_⟩ <;>
      first
        | rfl
        | trivial
        | (simp [Transport.setOp, Transport.getOp, Op.construct]; done)
        | exact Transport.mem_updateHintsSet_hint _ _

/-- Witness for C3, exercising all three dispatch outcomes against a
transport holding one client Op with opId (9,1): a matching response is
attached and hinted; a stale response is dropped with no new Op; a request
creates server Op 1 keyed by the message OpId. -/
theorem processInbound_dispatch_witness :
    ((runSteps [.alloc] (Transport.init 9 5)).processOneInbound
        ⟨⟨⟨9, 1⟩, 0⟩, true, 33, 44⟩).getOp 0 = some
      { opId := ⟨9, 1⟩, isServerOp := false, state := .NOT_STARTED,
        retained := true, destroy := false,
        inMessage := some ⟨⟨⟨9, 1⟩, 0⟩, true, 33, 44⟩,
        outMessage := { id := ⟨⟨0, 0⟩, 0⟩, state := .NOT_STARTED,
                        replyAddress := 5 } } ∧
    0 ∈ ((runSteps [.alloc] (Transport.init 9 5)).processOneInbound
        ⟨⟨⟨9, 1⟩, 0⟩, true, 33, 44⟩).updateHintsSet ∧
    ((runSteps [.alloc] (Transport.init 9 5)).processOneInbound
        ⟨⟨⟨8, 8⟩, 0⟩, true, 33, 44⟩).receiverDropped = [⟨⟨8, 8⟩, 0⟩] ∧
    ((runSteps [.alloc] (Transport.init 9 5)).processOneInbound
        ⟨⟨⟨8, 8⟩, 0⟩, true, 33, 44⟩).nextRef = 1 ∧
    ((runSteps [.alloc] (Transport.init 9 5)).processOneInbound
        ⟨⟨⟨7, 7⟩, 1⟩, true, 33, 44⟩).getOp 1 = some
      { opId := ⟨7, 7⟩, isServerOp := true, state := .NOT_STARTED,
        retained := false, destroy := false,
        inMessage := some ⟨⟨⟨7, 7⟩, 1⟩, true, 33, 44⟩,
        outMessage := { id := ⟨⟨0, 0⟩, 0⟩, state := .NOT_STARTED,
                        replyAddress := 0 } } ∧
    ((runSteps [.alloc] (Transport.init 9 5)).processOneInbound
        ⟨⟨⟨7, 7⟩, 1⟩, true, 33, 44⟩).activeOps = [0, 1] := by
  have h1 := (processInbound_dispatch (runSteps [.alloc] (Transport.init 9 5))
      ⟨⟨⟨9, 1⟩, 0⟩, true, 33, 44⟩).1 (⟨9, 1⟩, 0)
    { opId := ⟨9, 1⟩, isServerOp := false, state := .NOT_STARTED,
      retained := true, destroy := false, inMessage := none,
      outMessage := { id := ⟨⟨0, 0⟩, 0⟩, state := .NOT_STARTED,
                      replyAddress := 5 } }
    rfl (by decide) (by decide)
  have h2 := (processInbound_dispatch (runSteps [.alloc] (Transport.init 9 5))
      ⟨⟨⟨8, 8⟩, 0⟩, true, 33, 44⟩).2.1 rfl (by decide)
  have h3 := (processInbound_dispatch (runSteps [.alloc] (Transport.init 9 5))
      ⟨⟨⟨7, 7⟩, 1⟩, true, 33, 44⟩).2.2 (by decide)
  exact ⟨h1.1, h1.2.1, h2.1.trans (by decide), h2.2.2.2.1.trans (by decide),
    h3.1.trans (by decide), h3.2.1.trans (by decide)⟩

end Homa

namespace Homa

/-- C4: a non-retained client Op is dropped by processUpdates from any state
(destroy set, enqueued on unusedOps); a non-retained server Op is dropped
only from Completed or Failed (in NotStarted or InProgress nothing is
enqueued and destroy stays clear); and the cleanupOps pass on a dropped Op at
the head of unusedOps invokes the Sender's dropMessage, destroys the Op and
removes it from activeOps, and (for a client) leaves no remoteOps entry with
its opId. -/
theorem releaseDrop_semantics (t : Transport) (r : OpRef) (op : Op) :
    (t.getOp r = some op → op.destroy = false → op.isServerOp = false →
      op.retained = false →
      (t.processUpdates r).getOp r = some { op with destroy := true } ∧
      (t.processUpdates r).unusedOps = t.unusedOps ++ [r]) ∧
    (t.getOp r = some op → op.destroy = false → op.isServerOp = true →
      op.retained = false →
      ((op.state = .COMPLETED ∨ op.state = .FAILED) →
        (t.processUpdates r).getOp r = some { op with destroy := true } ∧
        (t.processUpdates r).unusedOps = t.unusedOps ++ [r]) ∧
      ((op.state = .NOT_STARTED ∨ op.state = .IN_PROGRESS) →
        ((t.processUpdates r).getOp r).map Op.destroy = some false ∧
        (t.processUpdates r).unusedOps = t.unusedOps)) ∧
    (∀ rest, t.unusedOps = r :: rest → r ∈ t.activeOps →
      t.getOp r = some op → op.isServerOp = false →
      r ∈ (t.cleanupOps).senderDropped ∧
      (t.cleanupOps).getOp r = none ∧
      r ∉ (t.cleanupOps).activeOps ∧
      ∀ p ∈ (t.cleanupOps).remoteOps, p.1 ≠ op.opId) := by
  refine ⟨?_, ?_, ?_⟩
  · intro hget hdes hsrv hret
    unfold Transport.processUpdates
    rw [hget]
    simp [hdes, hsrv, hret, Transport.dropOp, Transport.setOp,
      Transport.getOp]
  · intro hget hdes hsrv hret
    have hops : t.ops r = some op := hget
    constructor
    · intro hcase
      rcases hcase with hst | hst <;>
      · unfold Transport.processUpdates
        rw [hget]
        simp [hdes, hsrv, hret, hst, Transport.dropOp, Transport.setOp,
          Transport.getOp]
    · intro hcase
      unfold Transport.processUpdates
      rw [hget]
      rcases hcase with hst | hst <;>
        cases hm : op.inMessage <;>
        simp [hdes, hsrv, hret, hst, hm, hops, Transport.setOp,
          Transport.getOp] <;>
        (repeat' split) <;>
        simp [hdes, hops, Transport.setOp, Transport.getOp]
  · intro rest hq hact hget hcli
    have hcont : (({ t with unusedOps := rest } : Transport)).activeOps.contains r
        = true :=
      List.elem_eq_true_of_mem hact
    have hget' : Transport.getOp { t with unusedOps := rest } r = some op := hget
    have hloop : t.cleanupOps =
        Transport.cleanupOpsLoop rest.length
          (Transport.cleanupOne { t with unusedOps := rest } r op) := by
      unfold Transport.cleanupOps
      rw [hq]
      simp only [List.length_cons]
      rw [Transport.cleanupOpsLoop]
      rw [hq]
      dsimp only
      rw [if_pos hcont, hget']
    refine ⟨?_, ?_, ?_, ?_⟩
    · rw [hloop]
      apply Transport.cleanupOpsLoop_senderDropped_mono
      simp
    · rw [hloop]
      apply Transport.cleanupOpsLoop_getOp_none
      simp
    · rw [hloop]
      apply Transport.cleanupOpsLoop_not_active
      simp
    · intro p hp
      rw [hloop] at hp
      have h1 := Transport.cleanupOpsLoop_remoteOps_sub _ _ p hp
      rw [Transport.cleanupOne_remoteOps_client _ _ _ hcli] at h1
      have h2 := List.of_mem_filter h1
      simpa using h2

/-- Witness for C4: a released client Op (trace alloc, release) is dropped by
processUpdates from NotStarted; cleanupOps then reclaims it, logging the
Sender dropMessage call and emptying activeOps and remoteOps; a released
server Op still InProgress is not enqueued for destruction. -/
theorem releaseDrop_semantics_witness :
    ((runSteps [.alloc, .release 0] (Transport.init 9 5)).processUpdates
        0).unusedOps = [0] ∧
    0 ∈ ((runSteps [.alloc, .release 0, .update 0]
        (Transport.init 9 5)).cleanupOps).senderDropped ∧
    ((runSteps [.alloc, .release 0, .update 0]
        (Transport.init 9 5)).cleanupOps).getOp 0 = none ∧
    0 ∉ ((runSteps [.alloc, .release 0, .update 0]
        (Transport.init 9 5)).cleanupOps).activeOps ∧
    ((runSteps [.inbound ⟨⟨⟨3, 4⟩, 1⟩, true, 77, 12⟩, .update 0, .receive,
        .reply 0, .release 0]
        (Transport.init 9 5)).processUpdates 0).unusedOps = [] := by
  have h1 := ((releaseDrop_semantics
      (runSteps [.alloc, .release 0] (Transport.init 9 5)) 0
      { opId := ⟨9, 1⟩, isServerOp := false, state := .NOT_STARTED,
        retained := false, destroy := false, inMessage := none,
        outMessage := { id := ⟨⟨0, 0⟩, 0⟩, state := .NOT_STARTED,
                        replyAddress := 5 } }).1 (by decide) rfl rfl rfl).2
  have h2 := (releaseDrop_semantics
      (runSteps [.alloc, .release 0, .update 0] (Transport.init 9 5)) 0
      { opId := ⟨9, 1⟩, isServerOp := false, state := .NOT_STARTED,
        retained := false, destroy := true, inMessage := none,
        outMessage := { id := ⟨⟨0, 0⟩, 0⟩, state := .NOT_STARTED,
                        replyAddress := 5 } }).2.2 [] (by decide) (by decide)
      (by decide) rfl
  have h3 := (((releaseDrop_semantics
      (runSteps [.inbound ⟨⟨⟨3, 4⟩, 1⟩, true, 77, 12⟩, .update 0, .receive,
        .reply 0, .release 0] (Transport.init 9 5)) 0
      { opId := ⟨3, 4⟩, isServerOp := true, state := .IN_PROGRESS,
        retained := false, destroy := false,
        inMessage := some ⟨⟨⟨3, 4⟩, 1⟩, true, 77, 12⟩,
        outMessage := { id := ⟨⟨3, 4⟩, 0⟩, state := .IN_PROGRESS,
                        replyAddress := 77 } }).2.1 (by decide) rfl rfl
      rfl).2 (Or.inr rfl)).2
  exact ⟨h1.trans (by decide), h2.1, h2.2.1, h2.2.2.1,
    h3.trans (by decide)⟩

end Homa

namespace Homa

namespace Transport

theorem checkForUpdatesLoopCount_fst (n : Nat) :
    ∀ t : Transport, (checkForUpdatesLoopCount n t).1 = checkForUpdatesLoop n t := by
  induction n with
  | zero => intro t; rfl
  | succ i ih =>
    intro t
    unfold checkForUpdatesLoopCount checkForUpdatesLoop
    cases hq : t.updateHintsOrder with
    | nil => rfl
    | cons hint rest =>
      dsimp only
      split
      · exact ih _
      · exact ih _

theorem checkForUpdatesLoopCount_le (n : Nat) :
    ∀ t : Transport, (checkForUpdatesLoopCount n t).2 ≤ n := by
  induction n with
  | zero => intro t; exact Nat.le_refl 0
  | succ i ih =>
    intro t
    unfold checkForUpdatesLoopCount
    cases hq : t.updateHintsOrder with
    | nil => exact Nat.zero_le _
    | cons hint rest =>
      dsimp only
      split
      · exact Nat.succ_le_succ (ih _)
      · exact Nat.succ_le_succ (ih _)

theorem checkForUpdatesLoopCount_lt (n : Nat) :
    ∀ t : Transport, (checkForUpdatesLoopCount n t).2 < n →
      (checkForUpdatesLoop n t).updateHintsOrder = [] := by
  induction n with
  | zero => intro t h; exact absurd h (Nat.lt_irrefl 0)
  | succ i ih =>
    intro t h
    unfold checkForUpdatesLoopCount at h
    unfold checkForUpdatesLoop
    cases hq : t.updateHintsOrder with
    | nil => exact hq
    | cons hint rest =>
      rw [hq] at h
      dsimp only at h
      dsimp only
      split
      · next hc =>
        rw [if_pos hc] at h
        exact ih _ (Nat.lt_of_succ_lt_succ h)
      · next hc =>
        rw [if_neg hc] at h
        exact ih _ (Nat.lt_of_succ_lt_succ h)

theorem cleanupOpsLoopCount_fst (n : Nat) :
    ∀ t : Transport, (cleanupOpsLoopCount n t).1 = cleanupOpsLoop n t := by
  induction n with
  | zero => intro t; rfl
  | succ i ih =>
    intro t
    unfold cleanupOpsLoopCount cleanupOpsLoop
    cases hq : t.unusedOps with
    | nil => rfl
    | cons r rest =>
      dsimp only
      split
      · split
        · exact ih _
        · exact ih _
      · exact ih _

theorem cleanupOpsLoopCount_le (n : Nat) :
    ∀ t : Transport, (cleanupOpsLoopCount n t).2 ≤ n := by
  induction n with
  | zero => intro t; exact Nat.le_refl 0
  | succ i ih =>
    intro t
    unfold cleanupOpsLoopCount
    cases hq : t.unusedOps with
    | nil => exact Nat.zero_le _
    | cons r rest =>
      dsimp only
      split
      · split
        · exact Nat.succ_le_succ (ih _)
        · exact Nat.succ_le_succ (ih _)
      · exact Nat.succ_le_succ (ih _)

theorem cleanupOpsLoopCount_lt (n : Nat) :
    ∀ t : Transport, (cleanupOpsLoopCount n t).2 < n →
      (cleanupOpsLoop n t).unusedOps = [] := by
  induction n with
  | zero => intro t h; exact absurd h (Nat.lt_irrefl 0)
  | succ i ih =>
    intro t h
    unfold cleanupOpsLoopCount at h
    unfold cleanupOpsLoop
    cases hq : t.unusedOps with
    | nil => exact hq
    | cons r rest =>
      rw [hq] at h
      dsimp only at h
      dsimp only
      split
      · next hc =>
        rw [if_pos hc] at h
        split
        · next op hg =>
          rw [hg] at h
          exact ih _ (Nat.lt_of_succ_lt_succ h)
        · next hg =>
          rw [hg] at h
          exact ih _ (Nat.lt_of_succ_lt_succ h)
      · next hc =>
        rw [if_neg hc] at h
        exact ih _ (Nat.lt_of_succ_lt_succ h)

end Transport

/-- C8: both bounded poll passes: checkForUpdates takes at most as many hints
off the queue as were present at entry (even though processUpdates may post
new hints mid-pass), and cleanupOps takes at most as many unused Ops as were
present at entry; each loop either uses its full entry-size budget or stopped
early on an empty queue. -/
theorem bounded_poll_passes (t : Transport) :
    (Transport.checkForUpdatesLoopCount t.updateHintsOrder.length t).1 =
      t.checkForUpdates ∧
    (Transport.checkForUpdatesLoopCount t.updateHintsOrder.length t).2 ≤
      t.updateHintsOrder.length ∧
    ((Transport.checkForUpdatesLoopCount t.updateHintsOrder.length t).2 =
        t.updateHintsOrder.length ∨
      (t.checkForUpdates).updateHintsOrder = []) ∧
    (Transport.cleanupOpsLoopCount t.unusedOps.length t).1 = t.cleanupOps ∧
    (Transport.cleanupOpsLoopCount t.unusedOps.length t).2 ≤
      t.unusedOps.length ∧
    ((Transport.cleanupOpsLoopCount t.unusedOps.length t).2 =
        t.unusedOps.length ∨ (t.cleanupOps).unusedOps = []) := by
  refine ⟨Transport.checkForUpdatesLoopCount_fst _ t,
    Transport.checkForUpdatesLoopCount_le _ t, ?_,
    Transport.cleanupOpsLoopCount_fst _ t,
    Transport.cleanupOpsLoopCount_le _ t, ?_⟩
  · by_cases hc : (Transport.checkForUpdatesLoopCount
        t.updateHintsOrder.length t).2 = t.updateHintsOrder.length
    · exact Or.inl hc
    · exact Or.inr (Transport.checkForUpdatesLoopCount_lt _ t
        (Nat.lt_of_le_of_ne (Transport.checkForUpdatesLoopCount_le _ t) hc))
  · by_cases hc : (Transport.cleanupOpsLoopCount t.unusedOps.length t).2 =
        t.unusedOps.length
    · exact Or.inl hc
    · exact Or.inr (Transport.cleanupOpsLoopCount_lt _ t
        (Nat.lt_of_le_of_ne (Transport.cleanupOpsLoopCount_le _ t) hc))

end Homa

namespace Homa

namespace Transport

@[simp]
theorem getOp_dropOp (t : Transport) (x : OpRef) (o : Op) (r : OpRef) :
    (t.dropOp x o).getOp r =
      if r = x then some { o with destroy := true } else t.getOp r := rfl

theorem processUpdates_getOp_other (t : Transport) (x r : OpRef)
    (h : r ≠ x) : (t.processUpdates x).getOp r = t.getOp r := by
  unfold Transport.processUpdates
  cases hx : t.getOp x with
  | none => rfl
  | some opx =>
    dsimp only
    (repeat' split) <;>
      simp [Transport.getOp, Transport.setOp, Transport.dropOp, h]

theorem processUpdates_getOp_self (t : Transport) (x : OpRef) (op : Op)
    (h0 : t.getOp x = some op) :
    (t.processUpdates x).getOp x = some op ∨
    (op.state = .NOT_STARTED ∧
      (t.processUpdates x).getOp x = some { op with state := .IN_PROGRESS }) ∨
    (op.state = .IN_PROGRESS ∧
      (t.processUpdates x).getOp x = some { op with state := .COMPLETED }) ∨
    (t.processUpdates x).getOp x = some { op with destroy := true } := by
  unfold Transport.processUpdates
  rw [h0]
  dsimp only
  (repeat' split) <;>
    simp_all [Transport.getOp, Transport.setOp, Transport.dropOp]

theorem processUpdates_rank_le (t : Transport) (x r : OpRef) (op op' : Op)
    (h0 : t.getOp r = some op)
    (h1 : (t.processUpdates x).getOp r = some op') :
    op.state.rank ≤ op'.state.rank := by
  by_cases hrx : r = x
  case neg =>
    rw [processUpdates_getOp_other t x r hrx, h0] at h1
    injection h1 with h1
    subst h1
    exact Nat.le_refl _
  case pos =>
    subst hrx
    rcases processUpdates_getOp_self t r op h0 with hc | ⟨hs, hc⟩ | ⟨hs, hc⟩ | hc
    · rw [hc] at h1
      injection h1 with h1
      subst h1
      exact Nat.le_refl _
    · rw [hc] at h1
      injection h1 with h1
      subst h1
      simp [OpState.rank, hs]
    · rw [hc] at h1
      injection h1 with h1
      subst h1
      simp [OpState.rank, hs]
    · rw [hc] at h1
      injection h1 with h1
      subst h1
      exact Nat.le_refl _

end Transport

end Homa

namespace Homa

namespace Transport

theorem processUpdates_getOp_none (t : Transport) (x r : OpRef)
    (h : t.getOp r = none) : (t.processUpdates x).getOp r = none := by
  by_cases hrx : r = x
  · subst hrx
    unfold Transport.processUpdates
    rw [h]
    exact h
  · rw [processUpdates_getOp_other t x r hrx]
    exact h

theorem processUpdates_isSome (t : Transport) (x r : OpRef) (op : Op)
    (h0 : t.getOp r = some op) :
    ∃ op', (t.processUpdates x).getOp r = some op' := by
  by_cases hrx : r = x
  · subst hrx
    rcases processUpdates_getOp_self t r op h0 with hc | ⟨_, hc⟩ | ⟨_, hc⟩ | hc <;>
      exact ⟨_, hc⟩
  · exact ⟨op, by rw [processUpdates_getOp_other t x r hrx]; exact h0⟩

theorem processUpdates_frame (t : Transport) (x : OpRef) :
    (t.processUpdates x).transportId = t.transportId ∧
    (t.processUpdates x).localAddress = t.localAddress ∧
    (t.processUpdates x).nextOpSequenceNumber = t.nextOpSequenceNumber ∧
    (t.processUpdates x).nextRef = t.nextRef ∧
    (t.processUpdates x).activeOps = t.activeOps ∧
    (t.processUpdates x).remoteOps = t.remoteOps := by
  unfold Transport.processUpdates
  cases hx : t.getOp x with
  | none => exact ⟨rfl, rfl, rfl, rfl, rfl, rfl⟩
  | some opx =>
    dsimp only
    (repeat' split) <;>
      simp [Transport.setOp, Transport.dropOp, Transport.hintUpdatedOp] <;>
      split <;> simp

theorem checkForUpdatesLoop_rank_le (n : Nat) :
    ∀ (t : Transport) (r : OpRef) (op op' : Op), t.getOp r = some op →
      (checkForUpdatesLoop n t).getOp r = some op' →
      op.state.rank ≤ op'.state.rank := by
  induction n with
  | zero =>
    intro t r op op' h0 h1
    have h1' : t.getOp r = some op' := h1
    rw [h0] at h1'
    injection h1' with h1'
    subst h1'
    exact Nat.le_refl _
  | succ i ih =>
    intro t r op op' h0 h1
    unfold checkForUpdatesLoop at h1
    cases hq : t.updateHintsOrder with
    | nil =>
      rw [hq] at h1
      dsimp only at h1
      have h1' : t.getOp r = some op' := h1
      rw [h0] at h1'
      injection h1' with h1'
      subst h1'
      exact Nat.le_refl _
    | cons hint rest =>
      rw [hq] at h1
      dsimp only at h1
      split at h1
      · obtain ⟨op'', h2⟩ := processUpdates_isSome
          { t with
            updateHintsOrder := rest
            updateHintsSet := t.updateHintsSet.filter (· ≠ hint) } hint r op h0
        exact Nat.le_trans (processUpdates_rank_le
          { t with
            updateHintsOrder := rest
            updateHintsSet := t.updateHintsSet.filter (· ≠ hint) }
          hint r op op'' h0 h2)
          (ih _ r op'' op' h2 h1)
      · exact ih _ r op op' (by exact h0) h1

theorem checkForUpdatesLoop_getOp_none (n : Nat) :
    ∀ (t : Transport) (r : OpRef), t.getOp r = none →
      (checkForUpdatesLoop n t).getOp r = none := by
  induction n with
  | zero => intro t r h; exact h
  | succ i ih =>
    intro t r h
    unfold checkForUpdatesLoop
    cases hq : t.updateHintsOrder with
    | nil => exact h
    | cons hint rest =>
      dsimp only
      split
      · exact ih _ r (processUpdates_getOp_none _ hint r h)
      · exact ih _ r h

theorem checkForUpdatesLoop_frame (n : Nat) :
    ∀ t : Transport,
      (checkForUpdatesLoop n t).transportId = t.transportId ∧
      (checkForUpdatesLoop n t).nextOpSequenceNumber = t.nextOpSequenceNumber ∧
      (checkForUpdatesLoop n t).nextRef = t.nextRef ∧
      (checkForUpdatesLoop n t).remoteOps = t.remoteOps := by
  induction n with
  | zero => intro t; exact ⟨rfl, rfl, rfl, rfl⟩
  | succ i ih =>
    intro t
    unfold checkForUpdatesLoop
    cases hq : t.updateHintsOrder with
    | nil => exact ⟨rfl, rfl, rfl, rfl⟩
    | cons hint rest =>
      dsimp only
      split
      · obtain ⟨f1, f2, f3, f4⟩ := ih (Transport.processUpdates
          { t with
            updateHintsOrder := rest
            updateHintsSet := t.updateHintsSet.filter (· ≠ hint) } hint)
        obtain ⟨g1, g2, g3, g4, g5, g6⟩ := processUpdates_frame
          { t with
            updateHintsOrder := rest
            updateHintsSet := t.updateHintsSet.filter (· ≠ hint) } hint
        exact ⟨f1.trans g1, f2.trans g3, f3.trans g4, f4.trans g6⟩
      · exact ih _

theorem cleanupOpsLoop_getOp_some (n : Nat) :
    ∀ (t : Transport) (r : OpRef) (op' : Op),
      (cleanupOpsLoop n t).getOp r = some op' → t.getOp r = some op' := by
  induction n with
  | zero => intro t r op' h; exact h
  | succ i ih =>
    intro t r op' h
    unfold cleanupOpsLoop at h
    split at h
    · exact h
    · dsimp only at h
      split at h
      · split at h
        · have h1 := ih _ r op' h
          simp only [cleanupOne_getOp] at h1
          split at h1
          · exact absurd h1 (by simp)
          · exact h1
        · have h1 := ih _ r op' h
          exact h1
      · have h1 := ih _ r op' h
        exact h1

theorem cleanupOpsLoop_remoteOps_sublist (n : Nat) :
    ∀ t : Transport, (cleanupOpsLoop n t).remoteOps.Sublist t.remoteOps := by
  induction n with
  | zero => intro t; exact List.Sublist.refl _
  | succ i ih =>
    intro t
    unfold cleanupOpsLoop
    split
    · exact List.Sublist.refl _
    · dsimp only
      split
      · split
        · next op hg =>
          refine (ih _).trans ?_
          simp only [Transport.cleanupOne]
          cases op.inMessage <;> by_cases hs : op.isServerOp = true <;>
            simp [hs]
        · exact ih _
      · exact ih _

theorem cleanupOpsLoop_frame (n : Nat) :
    ∀ t : Transport,
      (cleanupOpsLoop n t).transportId = t.transportId ∧
      (cleanupOpsLoop n t).nextOpSequenceNumber = t.nextOpSequenceNumber ∧
      (cleanupOpsLoop n t).nextRef = t.nextRef := by
  induction n with
  | zero => intro t; exact ⟨rfl, rfl, rfl⟩
  | succ i ih =>
    intro t
    unfold cleanupOpsLoop
    split
    · exact ⟨rfl, rfl, rfl⟩
    · dsimp only
      split
      · split
        · next op hg =>
          obtain ⟨f1, f2, f3⟩ := ih (Transport.cleanupOne _ _ op)
          exact ⟨f1.trans (by simp), f2.trans (by simp), f3.trans (by simp)⟩
        · exact ih _
      · exact ih _

end Transport

end Homa

namespace Homa

namespace Transport

theorem getOp_some_inj {t : Transport} {r : OpRef} {a b : Op}
    (h1 : t.getOp r = some a) (h2 : t.getOp r = some b) : a = b := by
  rw [h1] at h2
  injection h2

theorem allocOp_getOp (t : Transport) (r : OpRef) :
    ((t.allocOp).2).getOp r =
      if r = t.nextRef then
        some { opId := ⟨t.transportId, t.nextOpSequenceNumber⟩
               isServerOp := false
               state := .NOT_STARTED
               retained := true
               destroy := false
               inMessage := none
               outMessage := { id := ⟨⟨0, 0⟩, 0⟩, state := .NOT_STARTED,
                               replyAddress := t.localAddress } }
      else t.getOp r := by
  by_cases hr : r = t.nextRef <;>
    simp [Transport.allocOp, Transport.getOp, Transport.setOp, Op.construct, hr]

theorem releaseOp_getOp (t : Transport) (x r : OpRef) :
    (t.releaseOp x).getOp r = t.getOp r ∨
    ∃ opx, t.getOp x = some opx ∧ r = x ∧
      (t.releaseOp x).getOp r = some { opx with retained := false } := by
  unfold Transport.releaseOp
  cases hg : t.getOp x with
  | none => left; rfl
  | some opx =>
    dsimp only
    by_cases hr : r = x
    · right
      exact ⟨opx, rfl, hr, by simp [hr]⟩
    · left
      simp [hr]

theorem senderSendMessage_getOp (t : Transport) (x : OpRef) (mid : MessageId)
    (d : Nat) (r : OpRef) :
    (t.senderSendMessage x mid d).getOp r = t.getOp r ∨
    ∃ opx, t.getOp x = some opx ∧ r = x ∧
      (t.senderSendMessage x mid d).getOp r =
        some { opx with outMessage :=
          { opx.outMessage with id := mid, state := .IN_PROGRESS } } := by
  unfold Transport.senderSendMessage
  cases hg : t.getOp x with
  | none => left; rfl
  | some opx =>
    dsimp only
    by_cases hr : r = x
    · right
      exact ⟨opx, rfl, hr, by simp [Transport.getOp, Transport.setOp, hr]⟩
    · left
      simp [Transport.getOp, Transport.setOp, hr]

theorem senderAdvance_getOp (t : Transport) (x : OpRef) (st : OutState)
    (r : OpRef) :
    (t.senderAdvance x st).getOp r = t.getOp r ∨
    ∃ opx, t.getOp x = some opx ∧ r = x ∧
      (t.senderAdvance x st).getOp r =
        some { opx with outMessage := { opx.outMessage with state := st } } := by
  unfold Transport.senderAdvance
  cases hg : t.getOp x with
  | none => left; rfl
  | some opx =>
    dsimp only
    by_cases hr : r = x
    · right
      exact ⟨opx, rfl, hr, by simp [Transport.getOp, Transport.setOp, hr]⟩
    · left
      simp [Transport.getOp, Transport.setOp, hr]

theorem receiveOp_getOp (t : Transport) (r : OpRef) :
    ((t.receiveOp).2).getOp r = t.getOp r ∨
    ∃ op0, t.getOp r = some op0 ∧ ∃ a,
      ((t.receiveOp).2).getOp r = some { op0 with
        retained := true
        outMessage := { op0.outMessage with replyAddress := a } } := by
  unfold Transport.receiveOp
  cases hq : t.pendingServerOps with
  | nil => left; rfl
  | cons r0 rest =>
    dsimp only
    cases hg : Transport.getOp { t with pendingServerOps := rest } r0 with
    | none => left; rfl
    | some op0 =>
      dsimp only
      by_cases hr : r = r0
      · subst hr
        right
        refine ⟨op0, hg, match op0.inMessage with
          | some m => m.replyAddress
          | none => op0.outMessage.replyAddress, ?_⟩
        simp [Transport.getOp, Transport.setOp]
      · left
        simp [Transport.getOp, Transport.setOp, hr]

end Transport

end Homa

namespace Homa

namespace Transport

theorem processOneInbound_getOp (t : Transport) (m : InMsg) (r : OpRef) :
    ((t.processOneInbound m).nextRef = t.nextRef ∧
      (t.processOneInbound m).getOp r = t.getOp r) ∨
    ((t.processOneInbound m).nextRef = t.nextRef ∧
      ∃ opx, t.getOp r = some opx ∧
        (t.processOneInbound m).getOp r =
          some { opx with inMessage := some m }) ∨
    ((t.processOneInbound m).nextRef = t.nextRef + 1 ∧ r = t.nextRef ∧
      (t.processOneInbound m).getOp r =
        some { opId := m.id.opId, isServerOp := true, state := .NOT_STARTED,
               retained := false, destroy := false, inMessage := some m,
               outMessage := { id := ⟨⟨0, 0⟩, 0⟩, state := .NOT_STARTED,
                               replyAddress := 0 } }) ∨
    ((t.processOneInbound m).nextRef = t.nextRef + 1 ∧ r ≠ t.nextRef ∧
      (t.processOneInbound m).getOp r = t.getOp r) := by
  unfold Transport.processOneInbound
  by_cases htag : m.id.tag = ULTIMATE_RESPONSE_TAG
  · rw [if_pos htag]
    cases hf : t.remoteOps.find? (fun p => p.1 = m.id.opId) with
    | none => exact Or.inl ⟨rfl, rfl⟩
    | some p =>
      dsimp only
      cases hg : t.getOp p.2 with
      | none => exact Or.inl ⟨rfl, rfl⟩
      | some op0 =>
        dsimp only
        by_cases hr : r = p.2
        · subst hr
          exact Or.inr (Or.inl ⟨by simp [Transport.setOp], op0, hg,
            by simp [Transport.getOp, Transport.setOp]⟩)
        · exact Or.inl ⟨by simp [Transport.setOp],
            by simp [Transport.getOp, Transport.setOp, hr]⟩
  · rw [if_neg htag]
    by_cases hr : r = t.nextRef
    · subst hr
      refine Or.inr (Or.inr (Or.inl ⟨by simp [Transport.setOp], rfl, ?_⟩))
      simp [Transport.getOp, Transport.setOp, Op.construct]
    · refine Or.inr (Or.inr (Or.inr ⟨by simp [Transport.setOp], hr, ?_⟩))
      simp [Transport.getOp, Transport.setOp, hr]

theorem senderSendMessage_state (t : Transport) (x : OpRef) (mid : MessageId)
    (d : Nat) (r : OpRef) (op op' : Op) (h0 : t.getOp r = some op)
    (h1 : (t.senderSendMessage x mid d).getOp r = some op') :
    op'.state = op.state := by
  rcases senderSendMessage_getOp t x mid d r with hc | ⟨opx, hgx, hr, hc⟩
  · rw [hc] at h1
    rw [getOp_some_inj h0 h1]
  · subst hr
    rw [hc] at h1
    injection h1 with h1
    subst h1
    rw [getOp_some_inj hgx h0]

theorem sendRequest_state_or (t : Transport) (x : OpRef) (d : Nat)
    (r : OpRef) (op op' : Op) (h0 : t.getOp r = some op)
    (h1 : (t.sendRequest x d).getOp r = some op') :
    op'.state = op.state ∨ op'.state = .IN_PROGRESS := by
  unfold Transport.sendRequest at h1
  cases hg : t.getOp x with
  | none =>
    rw [hg] at h1
    dsimp only at h1
    exact Or.inl (by rw [getOp_some_inj h0 h1])
  | some opx =>
    rw [hg] at h1
    dsimp only at h1
    split at h1
    · split at h1
      · exact Or.inl (senderSendMessage_state _ _ _ _ _ _ _ h0 h1)
      · exact Or.inl (by rw [getOp_some_inj h0 h1])
    · by_cases hr : r = x
      · subst hr
        have h2 : (t.setOp r { opx with state := .IN_PROGRESS }).getOp r =
            some { opx with state := .IN_PROGRESS } := by simp
        have h3 := senderSendMessage_state _ _ _ _ _ _ _ h2 h1
        exact Or.inr (by rw [h3])
      · have h2 : (t.setOp x { opx with state := .IN_PROGRESS }).getOp r =
            some op := by simp [hr]; exact h0
        exact Or.inl (senderSendMessage_state _ _ _ _ _ _ _ h2 h1)

theorem sendReply_state_or (t : Transport) (x : OpRef)
    (r : OpRef) (op op' : Op) (h0 : t.getOp r = some op)
    (h1 : (t.sendReply x).getOp r = some op') :
    op'.state = op.state ∨ op'.state = .IN_PROGRESS := by
  unfold Transport.sendReply at h1
  cases hg : t.getOp x with
  | none =>
    rw [hg] at h1
    dsimp only at h1
    exact Or.inl (by rw [getOp_some_inj h0 h1])
  | some opx =>
    rw [hg] at h1
    dsimp only at h1
    split at h1
    · exact Or.inl (by rw [getOp_some_inj h0 h1])
    · by_cases hr : r = x
      · subst hr
        have h2 : (t.setOp r { opx with state := .IN_PROGRESS }).getOp r =
            some { opx with state := .IN_PROGRESS } := by simp
        have h3 := senderSendMessage_state _ _ _ _ _ _ _ h2 h1
        exact Or.inr (by rw [h3])
      · have h2 : (t.setOp x { opx with state := .IN_PROGRESS }).getOp r =
            some op := by simp [hr]; exact h0
        exact Or.inl (senderSendMessage_state _ _ _ _ _ _ _ h2 h1)

end Transport

end Homa

namespace Homa

namespace Transport

theorem receiveOp_nextRef (t : Transport) :
    ((t.receiveOp).2).nextRef = t.nextRef := by
  unfold Transport.receiveOp
  cases t.pendingServerOps with
  | nil => rfl
  | cons r0 rest =>
    dsimp only
    cases Transport.getOp { t with pendingServerOps := rest } r0 <;>
      simp [Transport.setOp]

theorem releaseOp_nextRef (t : Transport) (x : OpRef) :
    (t.releaseOp x).nextRef = t.nextRef := by
  unfold Transport.releaseOp
  cases t.getOp x <;> simp [Transport.setOp]

theorem senderSendMessage_nextRef (t : Transport) (x : OpRef)
    (mid : MessageId) (d : Nat) :
    (t.senderSendMessage x mid d).nextRef = t.nextRef := by
  unfold Transport.senderSendMessage
  cases t.getOp x <;> simp [Transport.setOp]

theorem sendRequest_nextRef (t : Transport) (x : OpRef) (d : Nat) :
    (t.sendRequest x d).nextRef = t.nextRef := by
  unfold Transport.sendRequest
  cases t.getOp x with
  | none => rfl
  | some opx =>
    dsimp only
    split
    · split
      · rw [senderSendMessage_nextRef]
      · rfl
    · rw [senderSendMessage_nextRef]
      simp [Transport.setOp]

theorem sendReply_nextRef (t : Transport) (x : OpRef) :
    (t.sendReply x).nextRef = t.nextRef := by
  unfold Transport.sendReply
  cases t.getOp x with
  | none => rfl
  | some opx =>
    dsimp only
    split
    · rfl
    · rw [senderSendMessage_nextRef]
      simp [Transport.setOp]

theorem senderAdvance_nextRef (t : Transport) (x : OpRef) (st : OutState) :
    (t.senderAdvance x st).nextRef = t.nextRef := by
  unfold Transport.senderAdvance
  cases t.getOp x <;> simp [Transport.setOp]

theorem senderSendMessage_getOp_none (t : Transport) (x : OpRef)
    (mid : MessageId) (d : Nat) (r : OpRef) (h : t.getOp r = none) :
    (t.senderSendMessage x mid d).getOp r = none := by
  rcases senderSendMessage_getOp t x mid d r with hc | ⟨opx, hgx, hr, hc⟩
  · rw [hc]; exact h
  · subst hr
    rw [h] at hgx
    exact absurd hgx (by simp)

theorem sendRequest_getOp_none (t : Transport) (x : OpRef) (d : Nat)
    (r : OpRef) (h : t.getOp r = none) :
    (t.sendRequest x d).getOp r = none := by
  unfold Transport.sendRequest
  cases hg : t.getOp x with
  | none => exact h
  | some opx =>
    dsimp only
    split
    · split
      · exact senderSendMessage_getOp_none _ _ _ _ _ h
      · exact h
    · apply senderSendMessage_getOp_none
      have hr : r ≠ x := fun he => by rw [he, hg] at h; exact absurd h (by simp)
      simp [Transport.getOp, Transport.setOp, hr]
      exact h

theorem sendReply_getOp_none (t : Transport) (x : OpRef)
    (r : OpRef) (h : t.getOp r = none) :
    (t.sendReply x).getOp r = none := by
  unfold Transport.sendReply
  cases hg : t.getOp x with
  | none => exact h
  | some opx =>
    dsimp only
    split
    · exact h
    · apply senderSendMessage_getOp_none
      have hr : r ≠ x := fun he => by rw [he, hg] at h; exact absurd h (by simp)
      simp [Transport.getOp, Transport.setOp, hr]
      exact h

theorem fresh_init (tid addr : Nat) : Fresh (Transport.init tid addr) := by
  intro r _
  rfl

theorem fresh_step (s : Step) (t : Transport) (hF : Fresh t) :
    Fresh (s.apply t) := by
  cases s with
  | alloc =>
    intro r hr
    dsimp only [Step.apply] at hr ⊢
    rw [show ((t.allocOp).2).nextRef = t.nextRef + 1 from rfl] at hr
    have h1 := allocOp_getOp t r
    have hne : r ≠ t.nextRef := by
      intro he
      rw [he] at hr
      exact Nat.not_succ_le_self _ hr
    rw [if_neg hne] at h1
    exact h1.trans (hF r (Nat.le_of_succ_le hr))
  | receive =>
    intro r hr
    dsimp only [Step.apply] at hr ⊢
    rw [receiveOp_nextRef t] at hr
    rcases receiveOp_getOp t r with hc | ⟨op0, hg, a, hc⟩
    · rw [hc]; exact hF r hr
    · rw [hF r hr] at hg
      exact absurd hg (by simp)
  | release x =>
    intro r hr
    dsimp only [Step.apply] at hr ⊢
    rw [releaseOp_nextRef t x] at hr
    rcases releaseOp_getOp t x r with hc | ⟨opx, hgx, hrx, hc⟩
    · rw [hc]; exact hF r hr
    · subst hrx
      rw [hF r hr] at hgx
      exact absurd hgx (by simp)
  | request x d =>
    intro r hr
    dsimp only [Step.apply] at hr ⊢
    rw [sendRequest_nextRef t x d] at hr
    exact sendRequest_getOp_none t x d r (hF r hr)
  | reply x =>
    intro r hr
    dsimp only [Step.apply] at hr ⊢
    rw [sendReply_nextRef t x] at hr
    exact sendReply_getOp_none t x r (hF r hr)
  | inbound m =>
    intro r hr
    dsimp only [Step.apply] at hr ⊢
    rcases processOneInbound_getOp t m r with ⟨hn, hc⟩ | ⟨hn, opx, hg, hc⟩ |
      ⟨hn, hrr, hc⟩ | ⟨hn, hrr, hc⟩
    · rw [hc]
      rw [hn] at hr
      exact hF r hr
    · rw [hn] at hr
      rw [hF r hr] at hg
      exact absurd hg (by simp)
    · subst hrr
      rw [hn] at hr
      exact absurd hr (Nat.not_succ_le_self _)
    · rw [hc]
      rw [hn] at hr
      exact hF r (Nat.le_of_succ_le hr)
  | checkUpdates =>
    intro r hr
    dsimp only [Step.apply] at hr ⊢
    unfold Transport.checkForUpdates at hr ⊢
    rw [(checkForUpdatesLoop_frame t.updateHintsOrder.length t).2.2.1] at hr
    exact checkForUpdatesLoop_getOp_none _ t r (hF r hr)
  | cleanup =>
    intro r hr
    dsimp only [Step.apply] at hr ⊢
    unfold Transport.cleanupOps at hr ⊢
    rw [(cleanupOpsLoop_frame t.unusedOps.length t).2.2] at hr
    cases hres : (cleanupOpsLoop t.unusedOps.length t).getOp r with
    | none => rfl
    | some op' =>
      have h2 := cleanupOpsLoop_getOp_some _ t r op' hres
      rw [hF r hr] at h2
      exact absurd h2 (by simp)
  | update x =>
    intro r hr
    dsimp only [Step.apply] at hr ⊢
    rw [(processUpdates_frame t x).2.2.2.1] at hr
    exact processUpdates_getOp_none t x r (hF r hr)
  | senderProgress x st =>
    intro r hr
    dsimp only [Step.apply] at hr ⊢
    rw [senderAdvance_nextRef t x st] at hr
    rcases senderAdvance_getOp t x st r with hc | ⟨opx, hgx, hrx, hc⟩
    · rw [hc]; exact hF r hr
    · subst hrx
      rw [hF r hr] at hgx
      exact absurd hgx (by simp)

theorem fresh_runSteps (trace : List Step) :
    ∀ t : Transport, Fresh t → Fresh (runSteps trace t) := by
  induction trace with
  | nil => intro t h; exact h
  | cons s rest ih =>
    intro t h
    exact ih (s.apply t) (fresh_step s t h)

end Transport

end Homa

namespace Homa

namespace Transport

theorem step_rank (s : Step) (t : Transport) (hF : Fresh t) (r : OpRef)
    (op op' : Op) (h0 : t.getOp r = some op)
    (h1 : (s.apply t).getOp r = some op') :
    op.state.rank ≤ op'.state.rank ∨
      (s.isSend = true ∧ op'.state = .IN_PROGRESS) := by
  cases s with
  | alloc =>
    dsimp only [Step.apply] at h1
    rw [allocOp_getOp t r] at h1
    by_cases hr : r = t.nextRef
    · rw [hr, hF t.nextRef (Nat.le_refl _)] at h0
      exact absurd h0 (by simp)
    · rw [if_neg hr] at h1
      rw [getOp_some_inj h0 h1]
      exact Or.inl (Nat.le_refl _)
  | receive =>
    dsimp only [Step.apply] at h1
    rcases receiveOp_getOp t r with hc | ⟨op0, hg, a, hc⟩
    · rw [hc] at h1
      rw [getOp_some_inj h0 h1]
      exact Or.inl (Nat.le_refl _)
    · rw [hc] at h1
      injection h1 with h1
      subst h1
      rw [getOp_some_inj hg h0]
      exact Or.inl (Nat.le_refl _)
  | release x =>
    dsimp only [Step.apply] at h1
    rcases releaseOp_getOp t x r with hc | ⟨opx, hgx, hrx, hc⟩
    · rw [hc] at h1
      rw [getOp_some_inj h0 h1]
      exact Or.inl (Nat.le_refl _)
    · subst hrx
      rw [hc] at h1
      injection h1 with h1
      subst h1
      rw [getOp_some_inj hgx h0]
      exact Or.inl (Nat.le_refl _)
  | request x d =>
    dsimp only [Step.apply] at h1
    rcases sendRequest_state_or t x d r op op' h0 h1 with hs | hs
    · rw [hs]; exact Or.inl (Nat.le_refl _)
    · exact Or.inr ⟨rfl, hs⟩
  | reply x =>
    dsimp only [Step.apply] at h1
    rcases sendReply_state_or t x r op op' h0 h1 with hs | hs
    · rw [hs]; exact Or.inl (Nat.le_refl _)
    · exact Or.inr ⟨rfl, hs⟩
  | inbound m =>
    dsimp only [Step.apply] at h1
    rcases processOneInbound_getOp t m r with ⟨hn, hc⟩ | ⟨hn, opx, hg, hc⟩ |
      ⟨hn, hrr, hc⟩ | ⟨hn, hrr, hc⟩
    · rw [hc] at h1
      rw [getOp_some_inj h0 h1]
      exact Or.inl (Nat.le_refl _)
    · rw [hc] at h1
      injection h1 with h1
      subst h1
      rw [getOp_some_inj hg h0]
      exact Or.inl (Nat.le_refl _)
    · subst hrr
      rw [hF t.nextRef (Nat.le_refl _)] at h0
      exact absurd h0 (by simp)
    · rw [hc] at h1
      rw [getOp_some_inj h0 h1]
      exact Or.inl (Nat.le_refl _)
  | checkUpdates =>
    dsimp only [Step.apply] at h1
    unfold Transport.checkForUpdates at h1
    exact Or.inl (checkForUpdatesLoop_rank_le _ t r op op' h0 h1)
  | cleanup =>
    dsimp only [Step.apply] at h1
    unfold Transport.cleanupOps at h1
    have h2 := cleanupOpsLoop_getOp_some _ t r op' h1
    rw [getOp_some_inj h0 h2]
    exact Or.inl (Nat.le_refl _)
  | update x =>
    dsimp only [Step.apply] at h1
    exact Or.inl (processUpdates_rank_le t x r op op' h0 h1)
  | senderProgress x st =>
    dsimp only [Step.apply] at h1
    rcases senderAdvance_getOp t x st r with hc | ⟨opx, hgx, hrx, hc⟩
    · rw [hc] at h1
      rw [getOp_some_inj h0 h1]
      exact Or.inl (Nat.le_refl _)
    · subst hrx
      rw [hc] at h1
      injection h1 with h1
      subst h1
      rw [getOp_some_inj hgx h0]
      exact Or.inl (Nat.le_refl _)

end Transport

/-- Counterexample to C1 as stated: on a reachable transport state (a server
Op whose ultimate reply the Sender has reported SENT, so processUpdates moved
it to Completed), a second sendReply call stores IN_PROGRESS, moving the
state from Completed back to InProgress, a rank decrease. -/
theorem state_monotonic_counterexample :
    (((runSteps [.inbound ⟨⟨⟨3, 4⟩, 1⟩, true, 77, 12⟩, .update 0, .receive,
        .reply 0, .senderProgress 0 .SENT, .update 0]
        (Transport.init 9 5)).getOp 0).map Op.state = some .COMPLETED) ∧
    ((((runSteps [.inbound ⟨⟨⟨3, 4⟩, 1⟩, true, 77, 12⟩, .update 0, .receive,
        .reply 0, .senderProgress 0 .SENT, .update 0]
        (Transport.init 9 5)).sendReply 0).getOp 0).map Op.state =
      some .IN_PROGRESS) ∧
    OpState.rank .IN_PROGRESS < OpState.rank .COMPLETED := by
  decide

/-- C1 amended: on every reachable transport state, every step except
sendRequest and sendReply leaves each Op's state rank non-decreasing; the two
send calls store IN_PROGRESS unconditionally, so a decrease can only be one
of them moving a Completed or Failed Op back to InProgress. -/
theorem state_monotonic_amended (tid addr : Nat) (trace : List Step)
    (s : Step) (r : OpRef) (op op' : Op)
    (h0 : (runSteps trace (Transport.init tid addr)).getOp r = some op)
    (h1 : (s.apply (runSteps trace (Transport.init tid addr))).getOp r =
      some op') :
    op.state.rank ≤ op'.state.rank ∨
      (s.isSend = true ∧ op'.state = .IN_PROGRESS) :=
  Transport.step_rank s _
    (Transport.fresh_runSteps trace _ (Transport.fresh_init tid addr))
    r op op' h0 h1

/-- Witness for the amended C1: a non-send step (releaseOp) on a reachable
state keeps the Op's state rank unchanged. -/
theorem state_monotonic_amended_witness :
    OpState.rank .NOT_STARTED ≤ OpState.rank .NOT_STARTED ∨
      (Step.isSend (.release 0) = true ∧ OpState.NOT_STARTED = .IN_PROGRESS) := by
  have h := state_monotonic_amended 9 5 [.alloc] (.release 0) 0
    { opId := ⟨9, 1⟩, isServerOp := false, state := .NOT_STARTED,
      retained := true, destroy := false, inMessage := none,
      outMessage := { id := ⟨⟨0, 0⟩, 0⟩, state := .NOT_STARTED,
                      replyAddress := 5 } }
    { opId := ⟨9, 1⟩, isServerOp := false, state := .NOT_STARTED,
      retained := false, destroy := false, inMessage := none,
      outMessage := { id := ⟨⟨0, 0⟩, 0⟩, state := .NOT_STARTED,
                      replyAddress := 5 } }
    (by decide) (by decide)
  exact h

end Homa

namespace Homa

namespace Transport

theorem receiveOp_remote_frame (t : Transport) :
    ((t.receiveOp).2).remoteOps = t.remoteOps ∧
    ((t.receiveOp).2).transportId = t.transportId ∧
    ((t.receiveOp).2).nextOpSequenceNumber = t.nextOpSequenceNumber := by
  unfold Transport.receiveOp
  cases t.pendingServerOps with
  | nil => exact ⟨rfl, rfl, rfl⟩
  | cons r0 rest =>
    dsimp only
    cases Transport.getOp { t with pendingServerOps := rest } r0 <;>
      exact ⟨rfl, rfl, rfl⟩

theorem releaseOp_remote_frame (t : Transport) (x : OpRef) :
    (t.releaseOp x).remoteOps = t.remoteOps ∧
    (t.releaseOp x).transportId = t.transportId ∧
    (t.releaseOp x).nextOpSequenceNumber = t.nextOpSequenceNumber := by
  unfold Transport.releaseOp
  cases t.getOp x with
  | none => exact ⟨rfl, rfl, rfl⟩
  | some opx =>
    dsimp only
    exact ⟨by simp [Transport.setOp], by simp [Transport.setOp],
      by simp [Transport.setOp]⟩

theorem senderSendMessage_remote_frame (t : Transport) (x : OpRef)
    (mid : MessageId) (d : Nat) :
    (t.senderSendMessage x mid d).remoteOps = t.remoteOps ∧
    (t.senderSendMessage x mid d).transportId = t.transportId ∧
    (t.senderSendMessage x mid d).nextOpSequenceNumber =
      t.nextOpSequenceNumber := by
  unfold Transport.senderSendMessage
  cases t.getOp x <;> exact ⟨rfl, rfl, rfl⟩

theorem sendRequest_remote_frame (t : Transport) (x : OpRef) (d : Nat) :
    (t.sendRequest x d).remoteOps = t.remoteOps ∧
    (t.sendRequest x d).transportId = t.transportId ∧
    (t.sendRequest x d).nextOpSequenceNumber = t.nextOpSequenceNumber := by
  unfold Transport.sendRequest
  cases t.getOp x with
  | none => exact ⟨rfl, rfl, rfl⟩
  | some opx =>
    dsimp only
    split
    · split
      · exact senderSendMessage_remote_frame _ _ _ _
      · exact ⟨rfl, rfl, rfl⟩
    · exact senderSendMessage_remote_frame _ _ _ _

theorem sendReply_remote_frame (t : Transport) (x : OpRef) :
    (t.sendReply x).remoteOps = t.remoteOps ∧
    (t.sendReply x).transportId = t.transportId ∧
    (t.sendReply x).nextOpSequenceNumber = t.nextOpSequenceNumber := by
  unfold Transport.sendReply
  cases t.getOp x with
  | none => exact ⟨rfl, rfl, rfl⟩
  | some opx =>
    dsimp only
    split
    · exact ⟨rfl, rfl, rfl⟩
    · exact senderSendMessage_remote_frame _ _ _ _

theorem senderAdvance_remote_frame (t : Transport) (x : OpRef)
    (st : OutState) :
    (t.senderAdvance x st).remoteOps = t.remoteOps ∧
    (t.senderAdvance x st).transportId = t.transportId ∧
    (t.senderAdvance x st).nextOpSequenceNumber = t.nextOpSequenceNumber := by
  unfold Transport.senderAdvance
  cases t.getOp x <;> exact ⟨rfl, rfl, rfl⟩

theorem processOneInbound_remote_frame (t : Transport) (m : InMsg) :
    (t.processOneInbound m).remoteOps = t.remoteOps ∧
    (t.processOneInbound m).transportId = t.transportId ∧
    (t.processOneInbound m).nextOpSequenceNumber = t.nextOpSequenceNumber := by
  unfold Transport.processOneInbound
  dsimp only
  by_cases htag : m.id.tag = ULTIMATE_RESPONSE_TAG
  · rw [if_pos htag]
    cases t.remoteOps.find? (fun p => p.1 = m.id.opId) with
    | none => exact ⟨rfl, rfl, rfl⟩
    | some p =>
      dsimp only
      cases t.getOp p.2 with
      | none => exact ⟨rfl, rfl, rfl⟩
      | some op0 =>
        exact ⟨by simp [Transport.setOp], by simp [Transport.setOp],
          by simp [Transport.setOp]⟩
  · rw [if_neg htag]
    exact ⟨by simp [Transport.setOp], by simp [Transport.setOp],
      by simp [Transport.setOp]⟩

theorem remote_keys_init (tid addr : Nat) :
    RemoteKeysOK (Transport.init tid addr) := by
  constructor
  · exact List.Pairwise.nil
  · intro p hp
    exact absurd hp (List.not_mem_nil p)

theorem remote_keys_step (s : Step) (t : Transport) (hR : RemoteKeysOK t) :
    RemoteKeysOK (s.apply t) := by
  obtain ⟨hp, hb⟩ := hR
  cases s with
  | alloc =>
    have hro : ((t.allocOp).2).remoteOps =
        t.remoteOps ++ [(⟨t.transportId, t.nextOpSequenceNumber⟩, t.nextRef)] :=
      rfl
    constructor
    · dsimp only [Step.apply]
      rw [hro, List.pairwise_append]
      refine ⟨hp, List.pairwise_singleton _ _, ?_⟩
      intro a ha b hbm
      rw [List.mem_singleton] at hbm
      subst hbm
      intro hk
      have h2 := (hb a ha).2
      rw [hk] at h2
      exact absurd h2 (Nat.lt_irrefl _)
    · intro p hpm
      dsimp only [Step.apply] at hpm
      rw [hro] at hpm
      rcases List.mem_append.mp hpm with h | h
      · have h2 := hb p h
        exact ⟨h2.1, Nat.lt_succ_of_lt h2.2⟩
      · rw [List.mem_singleton] at h
        subst h
        exact ⟨rfl, Nat.lt_succ_self _⟩
  | receive =>
    obtain ⟨f1, f2, f3⟩ := receiveOp_remote_frame t
    exact ⟨by dsimp only [Step.apply]; rw [f1]; exact hp,
      fun p hpm => by
        dsimp only [Step.apply] at hpm
        rw [f1] at hpm
        have h2 := hb p hpm
        dsimp only [Step.apply]
        rw [f2, f3]
        exact h2⟩
  | release x =>
    obtain ⟨f1, f2, f3⟩ := releaseOp_remote_frame t x
    exact ⟨by dsimp only [Step.apply]; rw [f1]; exact hp,
      fun p hpm => by
        dsimp only [Step.apply] at hpm
        rw [f1] at hpm
        have h2 := hb p hpm
        dsimp only [Step.apply]
        rw [f2, f3]
        exact h2⟩
  | request x d =>
    obtain ⟨f1, f2, f3⟩ := sendRequest_remote_frame t x d
    exact ⟨by dsimp only [Step.apply]; rw [f1]; exact hp,
      fun p hpm => by
        dsimp only [Step.apply] at hpm
        rw [f1] at hpm
        have h2 := hb p hpm
        dsimp only [Step.apply]
        rw [f2, f3]
        exact h2⟩
  | reply x =>
    obtain ⟨f1, f2, f3⟩ := sendReply_remote_frame t x
    exact ⟨by dsimp only [Step.apply]; rw [f1]; exact hp,
      fun p hpm => by
        dsimp only [Step.apply] at hpm
        rw [f1] at hpm
        have h2 := hb p hpm
        dsimp only [Step.apply]
        rw [f2, f3]
        exact h2⟩
  | inbound m =>
    obtain ⟨f1, f2, f3⟩ := processOneInbound_remote_frame t m
    exact ⟨by dsimp only [Step.apply]; rw [f1]; exact hp,
      fun p hpm => by
        dsimp only [Step.apply] at hpm
        rw [f1] at hpm
        have h2 := hb p hpm
        dsimp only [Step.apply]
        rw [f2, f3]
        exact h2⟩
  | checkUpdates =>
    obtain ⟨f1, f2, f3, f4⟩ := checkForUpdatesLoop_frame
      t.updateHintsOrder.length t
    refine ⟨?_, ?_⟩
    · dsimp only [Step.apply]
      unfold Transport.checkForUpdates
      rw [f4]
      exact hp
    · intro p hpm
      dsimp only [Step.apply] at hpm
      unfold Transport.checkForUpdates at hpm
      rw [f4] at hpm
      have h2 := hb p hpm
      dsimp only [Step.apply]
      unfold Transport.checkForUpdates
      rw [f1, f2]
      exact h2
  | cleanup =>
    obtain ⟨f1, f2, f3⟩ := cleanupOpsLoop_frame t.unusedOps.length t
    refine ⟨?_, ?_⟩
    · dsimp only [Step.apply]
      unfold Transport.cleanupOps
      exact hp.sublist (cleanupOpsLoop_remoteOps_sublist _ t)
    · intro p hpm
      dsimp only [Step.apply] at hpm
      unfold Transport.cleanupOps at hpm
      have hmem := (cleanupOpsLoop_remoteOps_sublist _ t).mem hpm
      have h2 := hb p hmem
      dsimp only [Step.apply]
      unfold Transport.cleanupOps
      rw [f1, f2]
      exact h2
  | update x =>
    obtain ⟨g1, g2, g3, g4, g5, g6⟩ := processUpdates_frame t x
    refine ⟨?_, ?_⟩
    · dsimp only [Step.apply]
      rw [g6]
      exact hp
    · intro p hpm
      dsimp only [Step.apply] at hpm
      rw [g6] at hpm
      have h2 := hb p hpm
      dsimp only [Step.apply]
      rw [g1, g3]
      exact h2
  | senderProgress x st =>
    obtain ⟨f1, f2, f3⟩ := senderAdvance_remote_frame t x st
    exact ⟨by dsimp only [Step.apply]; rw [f1]; exact hp,
      fun p hpm => by
        dsimp only [Step.apply] at hpm
        rw [f1] at hpm
        have h2 := hb p hpm
        dsimp only [Step.apply]
        rw [f2, f3]
        exact h2⟩

theorem remote_keys_runSteps (trace : List Step) :
    ∀ t : Transport, RemoteKeysOK t → RemoteKeysOK (runSteps trace t) := by
  induction trace with
  | nil => intro t h; exact h
  | cons s rest ih =>
    intro t h
    exact ih (s.apply t) (remote_keys_step s t h)

end Transport

/-- Counterexample to C5 as stated: from a fresh transport, processing two
inbound requests that carry the same OpId (5,7) with different tags (an
initial request and a delegated request for the same operation) creates two
distinct active server Ops sharing opId (5,7). -/
theorem unique_opid_counterexample :
    0 ∈ (runSteps [.inbound ⟨⟨⟨5, 7⟩, 1⟩, true, 20, 21⟩,
        .inbound ⟨⟨⟨5, 7⟩, 2⟩, true, 20, 21⟩]
        (Transport.init 9 5)).activeOps ∧
    1 ∈ (runSteps [.inbound ⟨⟨⟨5, 7⟩, 1⟩, true, 20, 21⟩,
        .inbound ⟨⟨⟨5, 7⟩, 2⟩, true, 20, 21⟩]
        (Transport.init 9 5)).activeOps ∧
    ((runSteps [.inbound ⟨⟨⟨5, 7⟩, 1⟩, true, 20, 21⟩,
        .inbound ⟨⟨⟨5, 7⟩, 2⟩, true, 20, 21⟩]
        (Transport.init 9 5)).getOp 0).map Op.opId = some ⟨5, 7⟩ ∧
    ((runSteps [.inbound ⟨⟨⟨5, 7⟩, 1⟩, true, 20, 21⟩,
        .inbound ⟨⟨⟨5, 7⟩, 2⟩, true, 20, 21⟩]
        (Transport.init 9 5)).getOp 1).map Op.opId = some ⟨5, 7⟩ ∧
    (0 : OpRef) ≠ 1 := by
  decide

/-- C5 amended: on every reachable transport state the opIds minted by
allocOp are unique: the remoteOps table (which indexes exactly the client
Ops) never holds two entries with the same OpId key.  Server Ops created by
processInboundMessages take their opId from the incoming message and can
collide with each other. -/
theorem unique_opid_amended (tid addr : Nat) (trace : List Step) :
    (runSteps trace (Transport.init tid addr)).remoteOps.Pairwise
      (fun a b => a.1 ≠ b.1) :=
  (Transport.remote_keys_runSteps trace _
    (Transport.remote_keys_init tid addr)).1

end Homa
